import Mathlib

/-!
Shallow embedding of the qqplus roast-synchronization server core
(`src/backend/app/api/v1/endpoints/roasts.py`,
`src/backend/app/services/file_service.py`,
`src/backend/app/services/goals_service.py`).

Conventions of the embedding:
* `Decimal` / `float` quantities are modelled as `ℚ` (the Python code performs
  exact `Decimal` arithmetic on stocks; binary-float rounding noise is not
  relied on by any theorem below, and counterexamples avoid rounding ties).
* timestamps (`datetime`) are modelled as `ℚ` (seconds); only their ordering
  and equality matter to the code under study.
* UUIDs and other identifiers are modelled as `Nat` (only equality matters);
  requests whose identifiers fail to parse are rejected before any state is
  touched and are outside the scope of the claims, so parsed identifiers are
  taken as input.
* a Python value that may be `None` is an `Option`; for a field read through a
  truthiness test (`if body.get(k)`), `none` stands for "absent or falsy".
* `dict` objects used as string-keyed numeric maps are association lists
  (`List (String × ℚ)`), preserving insertion order like a Python dict.
-/

namespace RoastServer

/-- Association list standing for a Python `dict` with string keys and
numeric values (insertion ordered; keys unique by construction of the ops). -/
abbrev AList := List (String × ℚ)

/-- Python `m.get(k)` on a string-keyed dict. -/
def lookupA (m : AList) (k : String) : Option ℚ :=
  (m.find? (fun p => p.1 == k)).map (·.2)

/-- Python `k in m`. -/
def containsA (m : AList) (k : String) : Bool :=
  (lookupA m k).isSome

/-- Python truthiness of an optional number: `None`, `0` and `0.0` are falsy. -/
def pyTruthy : Option ℚ → Bool
  | none => false
  | some x => x != 0

/-- Python `a or b` on two optional numbers (returns `b` as-is when `a` is
falsy, mirroring that `0.0 or None` is `None` and `None or 0.0` is `0.0`). -/
def pyOr (a b : Option ℚ) : Option ℚ :=
  if pyTruthy a then a else b

/-- The `set_if_missing` helper of `compute_computed_from_timeindex`
(`file_service.py`): insert `k ↦ x` only when the value is not `None` and the
key is absent.  `dict.setdefault k x` has the same semantics for a non-`None`
`x`, so it is modelled by this function as well. -/
def setIfMissing (m : AList) (k : String) (v : Option ℚ) : AList :=
  match v with
  | none => m
  | some x => if containsA m k then m else m ++ [(k, x)]

/-- Rounding to `d` decimal digits, `scale = 10^d`, rounding half up.
Models Python `round(float(x), d)`: CPython rounds the binary double half to
even, which agrees with half-up at every non-tie rational; no theorem below
depends on the behaviour at an exact decimal tie. -/
def roundTo (q : ℚ) (scale : ℚ) : ℚ :=
  ((⌊q * scale + 1/2⌋ : ℤ) : ℚ) / scale

/-- Python `round(float(x), 3)` as used for blend ledger entries. -/
def round3 (q : ℚ) : ℚ := roundTo q 1000

/-- Python `round(pct, 1)` as used for the derived development ratio. -/
def round1 (q : ℚ) : ℚ := roundTo q 10

/-! ## Profile documents and the phase computer (`file_service.py`) -/

/-- A parsed `.alog` profile document, restricted to the fields read by
`compute_computed_from_timeindex`.  `timex` entries are numbers (the code
calls `float` on them unconditionally); temperature entries may be `None`;
`timeindex` entries are `None` or integers (Artisan sends integer sample
indices; a non-integer entry would make the Python list indexing raise, which
aborts the request before producing a document). -/
structure ProfileDoc where
  timex : List ℚ
  temp1 : List (Option ℚ)
  temp2 : List (Option ℚ)
  timeindex : Option (List (Option Int))
  computed : AList
deriving Repr, DecidableEq

/-- The `safe_idx` helper: `timeindex[slot]` if it is a valid index into the
arrays, else `None`. -/
def safe_idx (ti : List (Option Int)) (n : Nat) (slot : Nat) : Option Nat :=
  match ti.get? slot with
  | none => none
  | some none => none
  | some (some idx) => if idx < 0 ∨ (n : Int) ≤ idx then none else some idx.toNat

/-- The `safe_time` helper: `timex[timeindex[slot]]` (absolute seconds). -/
def safe_time (timex : List ℚ) (ti : List (Option Int)) (n : Nat) (slot : Nat) :
    Option ℚ :=
  match safe_idx ti n slot with
  | none => none
  | some i => timex.get? i

/-- The `safe_temp` helper: `tarr[timeindex[slot]]`.  A `None` entry at the
event index would make the Python `float(...)` raise and abort the request;
the embedding totalizes that case to "no value", which every theorem below is
insensitive to. -/
def safe_temp (tarr : List (Option ℚ)) (ti : List (Option Int)) (n : Nat)
    (slot : Nat) : Option ℚ :=
  match safe_idx ti n slot with
  | none => none
  | some i =>
    match tarr.get? i with
    | some (some v) => some v
    | _ => none

/-- The charge index: `timeindex[0]` when it is a number in `[0, n)`, else
`0` (mirrors the two-step normalisation in the code). -/
def chargeIdxOf (ti : List (Option Int)) (n : Nat) : Nat :=
  let c : Int :=
    match ti.get? 0 with
    | some (some q) => q
    | _ => -1
  if c < 0 ∨ (n : Int) ≤ c then 0 else c.toNat

/-- The turning-point search loop: index of the minimal non-`None` BT sample
in `range(charge_idx + 1, search_end)`, starting from `charge_idx`. -/
def tpMinIdx (btArr : List (Option ℚ)) (chargeIdx searchEnd : Nat) : Nat :=
  (List.range' (chargeIdx + 1) (searchEnd - (chargeIdx + 1))).foldl
    (fun minIdx i =>
      match btArr.get? i with
      | some (some v) =>
        (match btArr.get? minIdx with
         | some (some mv) => if v < mv then i else minIdx
         | _ => i)
      | _ => minIdx)
    chargeIdx

/-- The turning-point block of `compute_computed_from_timeindex`: guarded
`setdefault`s of `TP_time`, `TP_BT`, `TP_ET`. -/
def applyTPBlock (c : AList) (timex : List ℚ) (etArr btArr : List (Option ℚ))
    (cIdx n : Nat) (chargeTime : ℚ) : AList :=
  if ¬ containsA c "TP_time" ∨ ¬ containsA c "TP_BT" then
    let searchEnd := min (cIdx + 120) n
    if cIdx < searchEnd ∧ btArr ≠ [] then
      let minIdx := tpMinIdx btArr cIdx searchEnd
      if cIdx < minIdx ∧ ((btArr.get? minIdx).getD none).isSome then
        let c1 := setIfMissing c "TP_time"
          (some (((timex.get? minIdx).getD 0) - chargeTime))
        let c2 := setIfMissing c1 "TP_BT" ((btArr.get? minIdx).getD none)
        if etArr ≠ [] then
          if minIdx < etArr.length ∧ ((etArr.get? minIdx).getD none).isSome then
            setIfMissing c2 "TP_ET" ((etArr.get? minIdx).getD none)
          else c2
        else c2
      else c
    else c
  else c

/-- The CHARGE block of `compute_computed_from_timeindex`: guarded inserts of
`CHARGE_BT` and `CHARGE_ET`. -/
def chargeBlock (c : AList) (etArr btArr : List (Option ℚ)) (ti : List (Option Int))
    (n : Nat) : AList :=
  let c1 := if btArr ≠ [] then setIfMissing c "CHARGE_BT" (safe_temp btArr ti n 0) else c
  if etArr ≠ [] then setIfMissing c1 "CHARGE_ET" (safe_temp etArr ti n 0) else c1

/-- The event blocks of `compute_computed_from_timeindex` (DRY END [1],
FC START [2], FC END [3], SC START [4], SC END [5], DROP [6]): guarded
inserts of event times (relative to charge) and temperatures. -/
def eventBlocks (c : AList) (timex : List ℚ) (etArr btArr : List (Option ℚ))
    (ti : List (Option Int)) (n : Nat) (chargeTime : ℚ) : AList :=
  -- DRY END [1]
  let c1 := setIfMissing c "DRY_time" ((safe_time timex ti n 1).map (· - chargeTime))
  let c2 := setIfMissing c1 "DRY_BT" (safe_temp btArr ti n 1)
  let c3 := if etArr ≠ [] then setIfMissing c2 "DRY_ET" (safe_temp etArr ti n 1) else c2
  -- FC START [2]
  let c4 := setIfMissing c3 "FCs_time" ((safe_time timex ti n 2).map (· - chargeTime))
  let c5 := setIfMissing c4 "FCs_BT" (safe_temp btArr ti n 2)
  let c6 := if etArr ≠ [] then setIfMissing c5 "FCs_ET" (safe_temp etArr ti n 2) else c5
  -- FC END [3]
  let c7 := setIfMissing c6 "FCe_time" ((safe_time timex ti n 3).map (· - chargeTime))
  let c8 := setIfMissing c7 "FCe_BT" (safe_temp btArr ti n 3)
  let c9 := if etArr ≠ [] then setIfMissing c8 "FCe_ET" (safe_temp etArr ti n 3) else c8
  -- SC START [4], SC END [5]
  let c10 := setIfMissing c9 "SCs_time" ((safe_time timex ti n 4).map (· - chargeTime))
  let c11 := setIfMissing c10 "SCs_BT" (safe_temp btArr ti n 4)
  let c12 := setIfMissing c11 "SCe_time" ((safe_time timex ti n 5).map (· - chargeTime))
  let c13 := setIfMissing c12 "SCe_BT" (safe_temp btArr ti n 5)
  -- DROP [6]
  let c14 := setIfMissing c13 "DROP_time" ((safe_time timex ti n 6).map (· - chargeTime))
  let c15 := setIfMissing c14 "totaltime" ((safe_time timex ti n 6).map (· - chargeTime))
  let c16 := setIfMissing c15 "DROP_BT" (safe_temp btArr ti n 6)
  if etArr ≠ [] then setIfMissing c16 "DROP_ET" (safe_temp etArr ti n 6) else c16

/-- The phase block of `compute_computed_from_timeindex`: dry phase = DRY
time, middle phase = FCs − DRY, finish phase = DROP − FCs, each only when
absent (`drop_t` goes through Python `or`, so a zero `DROP_time` falls back
to `totaltime`). -/
def phaseBlock (c : AList) : AList :=
  let dry_t := lookupA c "DRY_time"
  let fcs_t := lookupA c "FCs_time"
  let drop_t := pyOr (lookupA c "DROP_time") (lookupA c "totaltime")
  let c1 := setIfMissing c "dryphasetime" dry_t
  let c2 := setIfMissing c1 "midphasetime"
    (match fcs_t, dry_t with
     | some f, some d => some (f - d)
     | _, _ => none)
  setIfMissing c2 "finishphasetime"
    (match drop_t, fcs_t with
     | some dr, some f => some (dr - f)
     | _, _ => none)

/-- `compute_computed_from_timeindex` (`file_service.py` lines 175-311):
build or supplement the `computed` map from `timeindex` + `timex` +
`temp1`/`temp2`.  `temp1` is ET, `temp2` is BT.  The body is the composition
of the CHARGE block, the TP block, the six event blocks and the phase block,
in source order. -/
def compute_computed_from_timeindex (data : ProfileDoc) : ProfileDoc :=
  let timex := data.timex
  let et_arr := data.temp1
  let bt_arr := data.temp2
  match data.timeindex with
  | none => data
  | some ti =>
    if ti.length < 7 then data
    else
      let n := timex.length
      if n = 0 ∨ bt_arr.length < n then data
      else
        let cIdx := chargeIdxOf ti n
        let charge_time := (timex.get? cIdx).getD 0
        let computed1 :=
          phaseBlock
            (eventBlocks
              (applyTPBlock (chargeBlock data.computed et_arr bt_arr ti n)
                timex et_arr bt_arr cIdx n charge_time)
              timex et_arr bt_arr ti n charge_time)
        { data with computed := computed1 }

/-- The `DEV_ratio` derivation of `_enrich_roast_from_profile`
(`roasts.py` lines 249-254), applied when the roast record carries no
`DEV_ratio`: `round((finishphasetime / totaltime) * 100, 1)`. -/
def dev_ratio_from_computed (computed : AList) : Option ℚ :=
  let tot := pyOr (lookupA computed "totaltime") (lookupA computed "DROP_time")
  let fin := lookupA computed "finishphasetime"
  match tot, fin with
  | some t, some f =>
    if t ≠ 0 ∧ 0 < t then some (round1 (f / t * 100)) else none
  | _, _ => none

/-! ## Server data model (`models/coffee.py`, `models/blend.py`,
`models/roast.py`, `models/idempotency.py`) -/

abbrev CoffeeId := Nat
abbrev RoastId := Nat
abbrev UserId := Nat
abbrev BlendId := Nat
abbrev Timestamp := ℚ

/-- An ingredient (`Coffee` row): human-readable id and stock. -/
structure Coffee where
  id : CoffeeId
  hrId : String
  label : String
  stockWeightKg : ℚ
deriving Repr, DecidableEq

/-- One entry of a roast's `deducted_components` ledger snapshot. -/
structure DeductedComponent where
  coffeeId : CoffeeId
  deductedWeightKg : ℚ
deriving Repr, DecidableEq

/-- One component of a stored `Blend.recipe` (JSONB). -/
structure RecipeComponent where
  coffeeId : CoffeeId
  percentage : ℚ
deriving Repr, DecidableEq

/-- A `Blend` row. -/
structure BlendEnt where
  id : BlendId
  userId : UserId
  recipe : List RecipeComponent
deriving Repr, DecidableEq

/-- A `Roast` row, restricted to the fields the claims observe.  Telemetry
columns, event temperatures/times, batch/schedule links and the
reference-profile binding are not read or written on any code path a claim
quantifies over, and are omitted. -/
structure StoredRoast where
  id : RoastId
  userId : UserId
  coffeeId : Option CoffeeId
  blendId : Option BlendId
  roastedAt : Timestamp
  modifiedAt : Option Timestamp
  updatedAt : Option Timestamp
  greenWeightKg : ℚ
  roastedWeightKg : Option ℚ
  label : String
  notes : Option String
  wholeColor : Int
  groundColor : Int
  cuppingScore : Int
  deductedComponents : List DeductedComponent
deriving Repr, DecidableEq

/-- A response body.  `roastData r` stands for the
`{"data": _roast_to_response(r), "result": _roast_to_artisan_result(r)}`
payload (both components are pure functions of the roast row `r`);
`conflict` is the 409 body carrying both timestamps; `httpError` is a
raised `HTTPException` detail.  The `_artisan_response` wrapper adds the
same constant keys (`success`, `ol`, `pu`, `notifications`) to every body it
returns, so equality of `RespBody` values models byte-equality of bodies. -/
inductive RespBody where
  | roastData (r : StoredRoast)
  | conflict (serverModifiedAt clientModifiedAt : Timestamp)
  | httpError (detail : String)
deriving Repr, DecidableEq

/-- An `IdempotencyCache` row. -/
structure CacheEntry where
  key : String
  endpoint : String
  response : RespBody
deriving Repr, DecidableEq

/-- The transactional store visible to the roast endpoints. -/
structure ServerState where
  coffees : List Coffee
  blends : List BlendEnt
  roasts : List StoredRoast
  cache : List CacheEntry
deriving Repr, DecidableEq

/-- One ingredient of an inline ad-hoc blend spec
(`{"ingredients": [{"coffee": hr_id, "ratio": r}, ...]}`). -/
structure BlendSpecIngredient where
  coffee : Option String
  ratio : ℚ
deriving Repr, DecidableEq

/-- The `blend` field of a payload: an inline spec object (a dict carrying
`label`/`ingredients`), a bare string (looked up as a Blend UUID; `none`
inside `uuidStr` when the string does not parse as a UUID), or absent. -/
inductive BlendFieldVal where
  | spec (ingredients : List BlendSpecIngredient)
  | uuidStr (blendUuid : Option BlendId)
  | absent
deriving Repr, DecidableEq

/-- A parsed upsert payload (after gzip/JSON decoding, before suppressed-field
restoration), restricted to the fields the modelled code paths read.
`none` stands for "key absent or falsy" on fields the code reads through
truthiness (`roastIdField`, `idField`, `date`, `modifiedAt`, `coffee`), and
for "key absent or null" on fields read through `is not None`
(`amountField`, `endWeight`, and the suppressible scalar fields). -/
structure RoastBody where
  roastIdField : Option RoastId
  idField : Option RoastId
  date : Option Timestamp
  roastedAtField : Option Timestamp
  roastdateField : Option Timestamp
  modifiedAt : Option Timestamp
  coffee : Option String
  blend : BlendFieldVal
  amountField : Option ℚ
  endWeight : Option ℚ
  labelField : Option String
  notesField : Option String
  wholeColorField : Option Int
  groundColorField : Option Int
  cuppingScoreField : Option Int
deriving Repr, DecidableEq

/-- `_restore_suppressed_fields`: give every absent suppressible field its
documented default.  Defaults for fields the model does not carry
(telemetry arrays, event temperatures, mode, GMT offset) and the `None`
defaults are invisible here. -/
def restore_suppressed_fields (b : RoastBody) : RoastBody :=
  { b with
    labelField := some (b.labelField.getD "")
    notesField := some (b.notesField.getD "")
    wholeColorField := some (b.wholeColorField.getD 0)
    groundColorField := some (b.groundColorField.getD 0)
    cuppingScoreField := some (b.cuppingScoreField.getD 0) }

/-! ## Store lookups -/

/-- `select(Coffee).where(Coffee.hr_id == hr)`. -/
def findCoffeeByHr (coffees : List Coffee) (hr : String) : Option Coffee :=
  coffees.find? (fun c => c.hrId == hr)

/-- `select(Coffee).where(Coffee.id == cid)` (also the `with_for_update`
reads: the row lock serializes writers and is invisible to the sequential
semantics). -/
def findCoffeeById (coffees : List Coffee) (cid : CoffeeId) : Option Coffee :=
  coffees.find? (fun c => c.id == cid)

/-- Write an ingredient's new stock back to the store.  The committed column
is `NUMERIC(10,3)` (`models/coffee.py` line 22), so the stored value is the
assigned stock rounded to 3 decimal places. -/
def updateCoffeeStock (coffees : List Coffee) (cid : CoffeeId) (newStock : ℚ) :
    List Coffee :=
  coffees.map (fun c =>
    if c.id == cid then { c with stockWeightKg := round3 newStock } else c)

/-- Observe a coffee's stock. -/
def stockOf (coffees : List Coffee) (cid : CoffeeId) : Option ℚ :=
  (findCoffeeById coffees cid).map (·.stockWeightKg)

/-- `select(Roast).where(Roast.id == rid, Roast.user_id == uid)`. -/
def findRoast (roasts : List StoredRoast) (rid : RoastId) (uid : UserId) :
    Option StoredRoast :=
  roasts.find? (fun r => r.id == rid && r.userId == uid)

/-- `select(Blend).where(Blend.id == bid, Blend.user_id == uid)`. -/
def findBlend (blends : List BlendEnt) (bid : BlendId) (uid : UserId) :
    Option BlendEnt :=
  blends.find? (fun b => b.id == bid && b.userId == uid)

/-- `_get_idempotency_cached`: lookup keyed by (key, endpoint). -/
def cacheLookup (cache : List CacheEntry) (k endpoint : String) : Option RespBody :=
  (cache.find? (fun e => e.key == k && e.endpoint == endpoint)).map (·.response)

/-- `_save_idempotency_cache`: append an entry when a key was supplied. -/
def saveIdempotencyCache (cache : List CacheEntry) (key : Option String)
    (endpoint : String) (resp : RespBody) : List CacheEntry :=
  match key with
  | none => cache
  | some k => cache ++ [⟨k, endpoint, resp⟩]

/-- The logical endpoint name used as the idempotency-cache partition. -/
def aroastEndpoint : String := "/api/v1/aroast"

/-! ## Stock deduction (step 13 of `create_or_update_roast`) -/

/-- Single-ingredient deduction (lines 778-788): deduct the full amount only
when stock suffices, otherwise deduct nothing and record a warning.  The
third component collects the ids the code logs insufficient-stock warnings
for. -/
def deductSingle (coffees : List Coffee) (coffeeIdVal : CoffeeId) (amount : ℚ) :
    List Coffee × List DeductedComponent × List CoffeeId :=
  match findCoffeeById coffees coffeeIdVal with
  | none => (coffees, [], [])
  | some coffee =>
    if amount ≤ coffee.stockWeightKg then
      (updateCoffeeStock coffees coffeeIdVal (coffee.stockWeightKg - amount),
       [⟨coffee.id, amount⟩], [])
    else (coffees, [], [coffeeIdVal])

/-- The loop body of the ad-hoc blend-spec deduction (lines 793-809). -/
def deductBlendSpecStep (amount : ℚ)
    (acc : List Coffee × List DeductedComponent × List CoffeeId)
    (ing : BlendSpecIngredient) : List Coffee × List DeductedComponent × List CoffeeId :=
  match ing.coffee with
  | none => acc
  | some hr =>
    if ing.ratio ≤ 0 then acc
    else
      match findCoffeeByHr acc.1 hr with
      | none => acc
      | some compCoffee =>
        let deductWeight := amount * ing.ratio
        if deductWeight ≤ compCoffee.stockWeightKg then
          (updateCoffeeStock acc.1 compCoffee.id (compCoffee.stockWeightKg - deductWeight),
           acc.2.1 ++ [⟨compCoffee.id, round3 deductWeight⟩], acc.2.2)
        else (acc.1, acc.2.1, acc.2.2 ++ [compCoffee.id])

/-- Ad-hoc blend-spec deduction (lines 790-809): per ingredient, resolve the
hr id, deduct `amount * ratio` when that ingredient's stock suffices, and
record the rounded weight in the ledger; insufficient components are skipped
individually with a warning. -/
def deductBlendSpec (coffees : List Coffee) (ingredients : List BlendSpecIngredient)
    (amount : ℚ) : List Coffee × List DeductedComponent × List CoffeeId :=
  ingredients.foldl (deductBlendSpecStep amount) (coffees, [], [])

/-- The loop body of the percentage-blend recipe deduction (lines 817-834). -/
def deductBlendRecipeStep (amount : ℚ)
    (acc : List Coffee × List DeductedComponent)
    (comp : RecipeComponent) : List Coffee × List DeductedComponent :=
  let deductWeight := amount * comp.percentage / 100
  match findCoffeeById acc.1 comp.coffeeId with
  | none => acc
  | some compCoffee =>
    if deductWeight ≤ compCoffee.stockWeightKg then
      (updateCoffeeStock acc.1 comp.coffeeId (compCoffee.stockWeightKg - deductWeight),
       acc.2 ++ [⟨comp.coffeeId, round3 deductWeight⟩])
    else acc

/-- Percentage-blend recipe deduction (lines 817-834): per recipe component,
deduct `amount * percentage / 100` when that ingredient's stock suffices;
insufficient or unresolvable components are skipped silently. -/
def deductBlendRecipe (coffees : List Coffee) (recipe : List RecipeComponent)
    (amount : ℚ) : List Coffee × List DeductedComponent :=
  recipe.foldl (deductBlendRecipeStep amount) (coffees, [])

/-- Percentage-blend deduction (lines 811-834): re-fetch the caller's blend
and deduct along its recipe. -/
def deductBlendEntity (coffees : List Coffee) (blends : List BlendEnt)
    (userId : UserId) (bid : BlendId) (amount : ℚ) :
    List Coffee × List DeductedComponent :=
  match findBlend blends bid userId with
  | none => (coffees, [])
  | some blend => deductBlendRecipe coffees blend.recipe amount

/-! ## Roast deletion (`delete_roast`) -/

/-- The loop body of stock restoration (lines 1143-1153). -/
def restoreComponentStep (cs : List Coffee) (comp : DeductedComponent) :
    List Coffee :=
  match findCoffeeById cs comp.coffeeId with
  | none => cs
  | some coffee =>
    updateCoffeeStock cs comp.coffeeId (coffee.stockWeightKg + comp.deductedWeightKg)

/-- Stock restoration from a ledger snapshot (lines 1141-1153): add back each
recorded quantity to its ingredient. -/
def restoreComponents (coffees : List Coffee) (comps : List DeductedComponent) :
    List Coffee :=
  comps.foldl restoreComponentStep coffees

/-- `delete_roast` (lines 1117-1171): restore stock from the recorded
`deducted_components` snapshot (never a recomputation) and remove the roast.
There is no user filter.  Batch bookkeeping touches the `Batch` table only,
not ingredient stocks, and is outside this model.  Returns the HTTP status
and the new state. -/
def delete_roast (s : ServerState) (roastId : RoastId) : Nat × ServerState :=
  match s.roasts.find? (fun r => r.id == roastId) with
  | none => (404, s)
  | some roast =>
    let coffees1 := restoreComponents s.coffees roast.deductedComponents
    (204, { s with coffees := coffees1,
                   roasts := s.roasts.filter (fun r => r.id != roastId) })

/-! ## The upsert handler (`create_or_update_roast`) -/

/-- The outcome of one handler invocation: HTTP status, response body, the
committed store, and the coffee ids an insufficient-stock warning was logged
for. -/
structure HandlerResult where
  status : Nat
  body : RespBody
  state : ServerState
  warnings : List CoffeeId
deriving Repr, DecidableEq

/-- The partial-update field merge of step 7 (lines 651-690): a restricted
field subset is written, then `modified_at` advances to now.  Note the body
arrives with suppressed fields restored, so the suppressible scalars are
always present. -/
def applyPartialUpdate (ex : StoredRoast) (body : RoastBody) (now : Timestamp) :
    StoredRoast :=
  let ex1 := match body.endWeight with
    | some w => { ex with roastedWeightKg := some w }
    | none => ex
  let ex2 := match body.notesField with
    | some nstr => { ex1 with notes := if nstr == "" then none else some nstr }
    | none => ex1
  let ex3 := match body.labelField with
    | some l => { ex2 with label := l }
    | none => ex2
  let ex4 := match body.wholeColorField with
    | some v => { ex3 with wholeColor := v }
    | none => ex3
  let ex5 := match body.groundColorField with
    | some v => { ex4 with groundColor := v }
    | none => ex4
  let ex6 := match body.cuppingScoreField with
    | some v => { ex5 with cuppingScore := v }
    | none => ex5
  { ex6 with modifiedAt := some now }

/-- Step 10 of `create_or_update_roast` for the coffee reference (lines
736-752): resolve the hr id, auto-creating a placeholder ingredient with
1000 kg stock when unknown.  `newCoffeeId` is the id the store would assign
to the placeholder. -/
def resolveCoffee (s : ServerState) (coffee : Option String)
    (newCoffeeId : CoffeeId) : ServerState × Option CoffeeId :=
  match coffee with
  | none => (s, none)
  | some hr =>
    match findCoffeeByHr s.coffees hr with
    | some c => (s, some c.id)
    | none =>
      let placeholder : Coffee :=
        { id := newCoffeeId, hrId := hr, label := hr, stockWeightKg := 1000 }
      ({ s with coffees := s.coffees ++ [placeholder] }, some newCoffeeId)

/-- Step 13 of `create_or_update_roast` (lines 774-834): the
`if coffee / elif blend_spec / elif blend` deduction policy selection. -/
def deductStep (coffees : List Coffee) (blends : List BlendEnt) (userId : UserId)
    (coffeeIdVal : Option CoffeeId) (blendSpecVal : Option (List BlendSpecIngredient))
    (blendIdVal : Option BlendId) (amount : ℚ) :
    List Coffee × List DeductedComponent × List CoffeeId :=
  if coffeeIdVal.isSome ∧ 0 < amount then
    deductSingle coffees (coffeeIdVal.getD 0) amount
  else if blendSpecVal.isSome ∧ 0 < amount then
    deductBlendSpec coffees (blendSpecVal.getD []) amount
  else if blendIdVal.isSome ∧ 0 < amount then
    (let r := deductBlendEntity coffees blends userId (blendIdVal.getD 0) amount
     (r.1, r.2, []))
  else (coffees, [], [])

/-- Steps 10-16 of `create_or_update_roast` (lines 721-991): resolve hr ids
(auto-creating a placeholder ingredient with 1000 kg stock), deduct stock by
the applicable policy, create the roast row carrying the ledger snapshot,
cache the response when a key was supplied, and answer 201. -/
def fullCreate (s : ServerState) (userId : UserId) (idempotencyKey : Option String)
    (body : RoastBody) (roastUuid : RoastId) (dateVal : Timestamp) (now : Timestamp)
    (newCoffeeId : CoffeeId) : HandlerResult :=
  -- Step 10: resolve HR ids to internal ids
  let resolved := resolveCoffee s body.coffee newCoffeeId
  let s1 := resolved.1
  let coffeeIdVal := resolved.2
  let blendSpecVal : Option (List BlendSpecIngredient) :=
    match body.blend with
    | .spec ings => some ings
    | _ => none
  let blendIdVal : Option BlendId :=
    match body.blend with
    | .uuidStr (some bu) => (findBlend s1.blends bu userId).map (·.id)
    | _ => none
  -- Step 12: timestamps
  let modifiedAtVal := body.modifiedAt.getD now
  -- Step 13: stock deduction
  let amount := body.amountField.getD 0
  let ded := deductStep s1.coffees s1.blends userId coffeeIdVal blendSpecVal
    blendIdVal amount
  -- Step 14: create the roast row
  let newRoast : StoredRoast := {
    id := roastUuid
    userId := userId
    coffeeId := coffeeIdVal
    blendId := blendIdVal
    roastedAt := dateVal
    modifiedAt := some modifiedAtVal
    updatedAt := none
    greenWeightKg := amount
    roastedWeightKg := body.endWeight.bind (fun w => if w == 0 then none else some w)
    label := body.labelField.getD ""
    notes := body.notesField
    wholeColor := body.wholeColorField.getD 0
    groundColor := body.groundColorField.getD 0
    cuppingScore := body.cuppingScoreField.getD 0
    deductedComponents := ded.2.1 }
  let s2 := { s1 with coffees := ded.1, roasts := s1.roasts ++ [newRoast] }
  -- Step 16: cache the response, then answer 201
  let resp := RespBody.roastData newRoast
  let s3 := { s2 with cache := saveIdempotencyCache s2.cache idempotencyKey aroastEndpoint resp }
  ⟨201, resp, s3, ded.2.2⟩

/-- `create_or_update_roast` (`roasts.py` lines 532-991).  `userId` is the
authenticated caller, `now` models `datetime.now(timezone.utc)`.  Gzip and
JSON decoding (step 2) precede this pure core and reject malformed bodies
without touching state, so the payload arrives parsed. -/
def create_or_update_roast (s : ServerState) (userId : UserId)
    (idempotencyKey : Option String) (rawBody : RoastBody) (now : Timestamp)
    (newCoffeeId : CoffeeId) : HandlerResult :=
  -- Step 1: idempotency cache check, before any other processing
  match idempotencyKey.bind (fun k => cacheLookup s.cache k aroastEndpoint) with
  | some cachedResponse => ⟨200, cachedResponse, s, []⟩
  | none =>
    -- Step 3: extract and validate roast_id
    match rawBody.roastIdField <|> rawBody.idField with
    | none => ⟨400, .httpError "roast_id or id required", s, []⟩
    | some roastUuid =>
      -- Step 4: restore suppressed fields
      let body := restore_suppressed_fields rawBody
      -- Step 5: check for an existing roast
      let existingRoast := findRoast s.roasts roastUuid userId
      -- Step 6: modified_at conflict
      let conflictTs : Option (Timestamp × Timestamp) :=
        match existingRoast, body.modifiedAt with
        | some ex, some clientModified =>
          match ex.modifiedAt <|> ex.updatedAt with
          | some serverModified =>
            if clientModified < serverModified then some (serverModified, clientModified)
            else none
          | none => none
        | _, _ => none
      match conflictTs with
      | some (sm, cm) => ⟨409, .conflict sm cm, s, []⟩
      | none =>
        -- Step 7: partial update (roast_id present, no usable date)
        if body.roastIdField.isSome ∧ body.date = none then
          match existingRoast with
          | some ex =>
            let ex1 := applyPartialUpdate ex body now
            let roasts1 := s.roasts.map
              (fun r => if r.id == ex.id && r.userId == userId then ex1 else r)
            let resp := RespBody.roastData ex1
            let cache1 := saveIdempotencyCache s.cache idempotencyKey aroastEndpoint resp
            ⟨200, resp, { s with roasts := roasts1, cache := cache1 }, []⟩
          | none =>
            -- recover a creation date from any field Artisan might send
            let dateRaw := body.date <|> body.roastedAtField <|> body.roastdateField
              <|> body.modifiedAt
            match dateRaw with
            | some d =>
              fullCreate s userId idempotencyKey { body with date := some d }
                roastUuid d now newCoffeeId
            | none =>
              if body.amountField.isSome ∧ body.roastIdField.isSome then
                fullCreate s userId idempotencyKey { body with date := some now }
                  roastUuid now now newCoffeeId
              else
                ⟨404, .httpError "Roast not found for update", s, []⟩
        else
          -- Step 8: full create requires a date
          match body.date with
          | none => ⟨400, .httpError "date field required for new roast", s, []⟩
          | some dateVal =>
            -- Step 9: idempotent re-send of an existing roast: return it
            match existingRoast with
            | some ex =>
              let resp := RespBody.roastData ex
              let cache1 := saveIdempotencyCache s.cache idempotencyKey aroastEndpoint resp
              ⟨200, resp, { s with cache := cache1 }, []⟩
            | none =>
              fullCreate s userId idempotencyKey body roastUuid dateVal now newCoffeeId

/-! ## QC goal evaluation (`goals_service.py`) -/

/-- The traffic-light statuses used by the goals service. -/
inductive Status where
  | green
  | yellow
  | red
deriving Repr, DecidableEq

/-- One parameter's configuration inside a goal's `parameters` map. -/
structure GoalParamConfig where
  enabled : Bool
  tolerance : ℚ
deriving Repr, DecidableEq

/-- A `RoastGoal` row. -/
structure RoastGoal where
  id : Nat
  name : String
  isActive : Bool
  failedStatus : String
  missingValueStatus : String
  parameters : List (String × GoalParamConfig)
deriving Repr, DecidableEq

/-- `check_parameter` (`goals_service.py` lines 16-60): missing data is
yellow; otherwise compare against the closed band
`[ref - tolerance/2, ref + tolerance/2]` (a non-positive half-tolerance is
replaced by `1e-6`). -/
def check_parameter (referenceValue actualValue : Option ℚ) (tolerance : ℚ) :
    Status :=
  match actualValue with
  | none => .yellow
  | some a =>
    match referenceValue with
    | none => .yellow
    | some r =>
      let halfTolerance := tolerance / 2
      let halfTolerance := if halfTolerance ≤ 0 then 1 / 1000000 else halfTolerance
      if r - halfTolerance ≤ a ∧ a ≤ r + halfTolerance then .green else .red

/-- A parsed `.alog` profile document as read by the goals service, plus the
DB-fallback dict shape of `get_reference_profile` (the two are the same
loosely-typed dict in Python).  `none` on a field means the key is absent. -/
structure ParsedProfile where
  backgroundUUID : Option RoastId
  computed : AList
  chargeTemp : Option ℚ
  dropTemp : Option ℚ
  TPTemp : Option ℚ
  DRYTemp : Option ℚ
  FCsTemp : Option ℚ
  dropTime : Option ℚ
  FCsTime : Option ℚ
  DEVTime : Option ℚ
  DEVRatio : Option ℚ
  DRYTime : Option ℚ
  greenWeightKg : Option ℚ
  roastedWeightKg : Option ℚ
  weightLoss : Option ℚ
  wholeColor : Option ℚ
  groundColor : Option ℚ
deriving Repr, DecidableEq

/-- A `Roast` row as read by the goals service.  `alogProfile` is the parse
result of the on-disk `.alog` file (`none` when the file is missing or
unparseable), `blobProfile` the parse result of the `roast_profiles` blob;
parse failures are caught and degrade exactly like absence. -/
structure GRoast where
  id : RoastId
  isReference : Bool
  chargeTemp : Option ℚ
  dropTemp : Option ℚ
  TPTemp : Option ℚ
  DRYTemp : Option ℚ
  FCsTemp : Option ℚ
  dropTime : Option ℚ
  FCsTime : Option ℚ
  DEVTime : Option ℚ
  DEVRatio : Option ℚ
  DRYTime : Option ℚ
  greenWeightKg : Option ℚ
  roastedWeightKg : Option ℚ
  weightLoss : Option ℚ
  wholeColor : ℚ
  groundColor : ℚ
  alogProfile : Option ParsedProfile
  blobProfile : Option ParsedProfile
deriving Repr, DecidableEq

/-- The store visible to the goals service. -/
structure GoalsDb where
  goals : List RoastGoal
  roasts : List GRoast
deriving Repr, DecidableEq

/-- `get_reference_profile` (lines 63-129): find the roast flagged as
reference; blob parse first, then disk, then the DB-fallback dict built from
the roast row (which carries no `FCs_time` key and drops falsy weights and
non-positive colors). -/
def get_reference_profile (db : GoalsDb) (backgroundUuid : RoastId) :
    Option ParsedProfile :=
  match db.roasts.find? (fun r => r.id == backgroundUuid && r.isReference) with
  | none => none
  | some referenceRoast =>
    match referenceRoast.blobProfile with
    | some p => some p
    | none =>
      match referenceRoast.alogProfile with
      | some p => some p
      | none =>
        some {
          backgroundUUID := none
          computed := []
          chargeTemp := referenceRoast.chargeTemp
          dropTemp := referenceRoast.dropTemp
          TPTemp := referenceRoast.TPTemp
          DRYTemp := referenceRoast.DRYTemp
          FCsTemp := referenceRoast.FCsTemp
          dropTime := referenceRoast.dropTime
          FCsTime := none
          DEVTime := referenceRoast.DEVTime
          DEVRatio := referenceRoast.DEVRatio
          DRYTime := referenceRoast.DRYTime
          greenWeightKg := referenceRoast.greenWeightKg.bind
            (fun w => if w == 0 then none else some w)
          roastedWeightKg := referenceRoast.roastedWeightKg.bind
            (fun w => if w == 0 then none else some w)
          weightLoss := referenceRoast.weightLoss
          wholeColor := if 0 < referenceRoast.wholeColor then some referenceRoast.wholeColor else none
          groundColor := if 0 < referenceRoast.groundColor then some referenceRoast.groundColor else none }

/-- The `ref_values` dict (lines 211-228): prefer `computed`, fall back to
direct profile fields, through Python `or` (so a falsy computed value falls
through). -/
def refValuesOf (p : ParsedProfile) : String → Option ℚ := fun param =>
  if param = "charge_temp" then pyOr (lookupA p.computed "CHARGE_BT") p.chargeTemp
  else if param = "drop_temp" then pyOr (lookupA p.computed "DROP_BT") p.dropTemp
  else if param = "TP_temp" then pyOr (lookupA p.computed "TP_BT") p.TPTemp
  else if param = "DRY_temp" then pyOr (lookupA p.computed "DRY_BT") p.DRYTemp
  else if param = "FCs_temp" then pyOr (lookupA p.computed "FCs_BT") p.FCsTemp
  else if param = "total_time" then pyOr (lookupA p.computed "totaltime") p.dropTime
  else if param = "FCs_time" then pyOr (lookupA p.computed "FCs_time") p.FCsTime
  else if param = "DEV_time" then pyOr (lookupA p.computed "finishphasetime") p.DEVTime
  else if param = "DEV_ratio" then p.DEVRatio
  else if param = "DRY_time" then pyOr (lookupA p.computed "DRY_time") p.DRYTime
  else if param = "green_weight_kg" then p.greenWeightKg
  else if param = "roasted_weight_kg" then p.roastedWeightKg
  else if param = "weight_loss" then p.weightLoss
  else if param = "whole_color" then p.wholeColor
  else if param = "ground_color" then p.groundColor
  else none

/-- The `actual_values` dict (lines 231-247), from the roast row. -/
def actualValuesOf (roast : GRoast) : String → Option ℚ := fun param =>
  if param = "charge_temp" then roast.chargeTemp
  else if param = "drop_temp" then roast.dropTemp
  else if param = "TP_temp" then roast.TPTemp
  else if param = "DRY_temp" then roast.DRYTemp
  else if param = "FCs_temp" then roast.FCsTemp
  else if param = "total_time" then roast.dropTime
  else if param = "FCs_time" then roast.FCsTime
  else if param = "DEV_time" then roast.DEVTime
  else if param = "DEV_ratio" then roast.DEVRatio
  else if param = "DRY_time" then roast.DRYTime
  else if param = "green_weight_kg" then
    roast.greenWeightKg.bind (fun w => if w == 0 then none else some w)
  else if param = "roasted_weight_kg" then
    roast.roastedWeightKg.bind (fun w => if w == 0 then none else some w)
  else if param = "weight_loss" then roast.weightLoss
  else if param = "whole_color" then
    (if 0 < roast.wholeColor then some roast.wholeColor else none)
  else if param = "ground_color" then
    (if 0 < roast.groundColor then some roast.groundColor else none)
  else none

/-- The per-parameter goal-status update rule (lines 269-279): a red check is
downgraded to yellow when `failed_status` is "warning"; a yellow (missing)
check is escalated to red when `missing_value_status` is "failed", unless the
goal is already red. -/
def goalStatusStep (goalStatus : Status) (res : Status)
    (failedSt missingSt : String) : Status :=
  match res with
  | .red =>
    if failedSt = "warning" then (if goalStatus = .red then .red else .yellow)
    else .red
  | .yellow =>
    if goalStatus = .red then goalStatus
    else if missingSt = "failed" then .red else .yellow
  | .green => goalStatus

/-- One goal's result row. -/
structure GoalResult where
  goalId : Nat
  status : Status
  parameters : List (String × Status)
deriving Repr, DecidableEq

/-- One goal's evaluation (the body of the `for goal in goals` loop, lines
253-288): check every enabled parameter; a goal with no checked parameter is
skipped. -/
def evalGoal (g : RoastGoal) (refV actualV : String → Option ℚ) :
    Option GoalResult :=
  let folded := g.parameters.foldl
    (fun (acc : Status × List (String × Status)) p =>
      if p.2.enabled then
        let res := check_parameter (refV p.1) (actualV p.1) p.2.tolerance
        (goalStatusStep acc.1 res g.failedStatus g.missingValueStatus,
         acc.2 ++ [(p.1, res)])
      else acc)
    (Status.green, [])
  if folded.2 = [] then none
  else some ⟨g.id, folded.1, folded.2⟩

/-- The goals-check outcome dict: overall status and per-goal results.
The Python `None` return ("not evaluated") is `Option.none` around this. -/
structure GoalsCheck where
  status : Status
  goals : List GoalResult
deriving Repr, DecidableEq

/-- Background-profile resolution (lines 152-192): the `backgroundUUID`
embedded in the roast's own profile, from the on-disk `.alog` first, then
from the blob. -/
def resolveBackgroundUuid (roast : GRoast) : Option RoastId :=
  match roast.alogProfile.bind (·.backgroundUUID) with
  | some bu => some bu
  | none => roast.blobProfile.bind (·.backgroundUUID)

/-- `check_roast_against_goals` (lines 132-300). -/
def check_roast_against_goals (db : GoalsDb) (roast : GRoast) :
    Option GoalsCheck :=
  let goals := db.goals.filter (·.isActive)
  if goals = [] then none
  else
    match resolveBackgroundUuid roast with
    | none => some ⟨.yellow, []⟩
    | some backgroundUuid =>
      match get_reference_profile db backgroundUuid with
      | none => some ⟨.yellow, []⟩
      | some referenceProfile =>
        let refV := refValuesOf referenceProfile
        let actualV := actualValuesOf roast
        let goalResults := goals.filterMap (fun g => evalGoal g refV actualV)
        let overall := goalResults.foldl
          (fun ov gr =>
            if gr.status = .red then .red
            else if gr.status = .yellow ∧ ov = .green then .yellow
            else ov)
          Status.green
        if goalResults = [] then none
        else some ⟨overall, goalResults⟩

/-! ## Association-list lemmas -/

theorem lookupA_nil (k : String) : lookupA [] k = none := rfl

theorem lookupA_cons (p : String × ℚ) (t : AList) (k : String) :
    lookupA (p :: t) k = if p.1 == k then some p.2 else lookupA t k := by
  cases h : p.1 == k <;> simp [lookupA, List.find?, h]

theorem lookupA_append (m l : AList) (k : String) :
    lookupA (m ++ l) k = (lookupA m k).orElse (fun _ => lookupA l k) := by
  induction m with
  | nil => simp [lookupA_nil]
  | cons p t ih =>
    by_cases h : p.1 == k <;> simp [lookupA_cons, h, ih]

/-- An existing binding survives any `setIfMissing`. -/
theorem setIfMissing_preserves {m : AList} {k : String} {v : ℚ}
    (k' : String) (v' : Option ℚ) (h : lookupA m k = some v) :
    lookupA (setIfMissing m k' v') k = some v := by
  cases v' with
  | none => exact h
  | some x =>
    simp only [setIfMissing]
    by_cases hc : containsA m k'
    · simp [hc, h]
    · simp [hc, lookupA_append, h]

/-- An existing binding survives a conditionally applied `setIfMissing`. -/
theorem ite_setIfMissing_preserves {m : AList} {k : String} {v : ℚ}
    (cond : Prop) [Decidable cond] (k' : String) (v' : Option ℚ)
    (h : lookupA m k = some v) :
    lookupA (if cond then setIfMissing m k' v' else m) k = some v := by
  split
  · exact setIfMissing_preserves _ _ h
  · exact h

/-- `setIfMissing` at another key does not change a lookup. -/
theorem lookupA_setIfMissing_ne {m : AList} {k k' : String} (hne : k' ≠ k)
    (v' : Option ℚ) : lookupA (setIfMissing m k' v') k = lookupA m k := by
  cases v' with
  | none => rfl
  | some x =>
    simp only [setIfMissing]
    by_cases hc : containsA m k'
    · rw [if_pos hc]
    · rw [if_neg hc, lookupA_append]
      cases h : lookupA m k with
      | some v => simp
      | none => simp [lookupA_cons, lookupA_nil, hne]

/-- A conditionally applied `setIfMissing` at another key does not change a
lookup. -/
theorem lookupA_ite_setIfMissing_ne {m : AList} {k k' : String} (hne : k' ≠ k)
    (cond : Prop) [Decidable cond] (v' : Option ℚ) :
    lookupA (if cond then setIfMissing m k' v' else m) k = lookupA m k := by
  split
  · exact lookupA_setIfMissing_ne hne v'
  · rfl

/-- Inserting at an absent key makes the lookup return the new value. -/
theorem lookupA_setIfMissing_self {m : AList} {k : String} {x : ℚ}
    (h : lookupA m k = none) :
    lookupA (setIfMissing m k (some x)) k = some x := by
  simp only [setIfMissing]
  have hc : containsA m k = false := by simp [containsA, h]
  simp [hc, lookupA_append, h, lookupA_cons, lookupA_nil]

/-- The turning-point block preserves every existing binding. -/
theorem applyTPBlock_preserves {c : AList} {k : String} {v : ℚ}
    (timex : List ℚ) (etArr btArr : List (Option ℚ)) (cIdx n : Nat)
    (chargeTime : ℚ) (h : lookupA c k = some v) :
    lookupA (applyTPBlock c timex etArr btArr cIdx n chargeTime) k = some v := by
  simp only [applyTPBlock]
  repeat' first
    | exact h
    | apply ite_setIfMissing_preserves
    | apply setIfMissing_preserves
    | split

/-- The turning-point block touches only the `TP_time`/`TP_BT`/`TP_ET`
keys. -/
theorem lookupA_applyTPBlock_ne {c : AList} {k : String}
    (h1 : k ≠ "TP_time") (h2 : k ≠ "TP_BT") (h3 : k ≠ "TP_ET")
    (timex : List ℚ) (etArr btArr : List (Option ℚ)) (cIdx n : Nat)
    (chargeTime : ℚ) :
    lookupA (applyTPBlock c timex etArr btArr cIdx n chargeTime) k = lookupA c k := by
  simp only [applyTPBlock]
  split
  · split
    · split
      · split
        · split
          · rw [lookupA_setIfMissing_ne (Ne.symm h3),
              lookupA_setIfMissing_ne (Ne.symm h2), lookupA_setIfMissing_ne (Ne.symm h1)]
          · rw [lookupA_setIfMissing_ne (Ne.symm h2), lookupA_setIfMissing_ne (Ne.symm h1)]
        · rw [lookupA_setIfMissing_ne (Ne.symm h2), lookupA_setIfMissing_ne (Ne.symm h1)]
      · rfl
    · rfl
  · rfl

/-- The CHARGE block preserves every existing binding. -/
theorem chargeBlock_preserves {c : AList} {k : String} {v : ℚ}
    (etArr btArr : List (Option ℚ)) (ti : List (Option Int)) (n : Nat)
    (h : lookupA c k = some v) :
    lookupA (chargeBlock c etArr btArr ti n) k = some v := by
  simp only [chargeBlock]
  apply ite_setIfMissing_preserves
  apply ite_setIfMissing_preserves
  exact h

/-- The event blocks preserve every existing binding. -/
theorem eventBlocks_preserves {c : AList} {k : String} {v : ℚ}
    (timex : List ℚ) (etArr btArr : List (Option ℚ)) (ti : List (Option Int))
    (n : Nat) (chargeTime : ℚ) (h : lookupA c k = some v) :
    lookupA (eventBlocks c timex etArr btArr ti n chargeTime) k = some v := by
  simp only [eventBlocks]
  repeat' first
    | exact h
    | apply ite_setIfMissing_preserves
    | apply setIfMissing_preserves

/-- The phase block preserves every existing binding. -/
theorem phaseBlock_preserves {c : AList} {k : String} {v : ℚ}
    (h : lookupA c k = some v) :
    lookupA (phaseBlock c) k = some v := by
  simp only [phaseBlock]
  apply setIfMissing_preserves
  apply setIfMissing_preserves
  apply setIfMissing_preserves
  exact h

/-- C8: for every input document and every key present in the input's
`computed` map, `compute_computed_from_timeindex` leaves the identical value
for that key in the output's `computed` map — it only adds keys that were
absent (first writer wins). -/
theorem c8_computed_first_writer_wins (data : ProfileDoc) (k : String) (v : ℚ)
    (h : lookupA data.computed k = some v) :
    lookupA (compute_computed_from_timeindex data).computed k = some v := by
  simp only [compute_computed_from_timeindex]
  cases hti : data.timeindex with
  | none => exact h
  | some ti =>
    by_cases h7 : ti.length < 7
    · simp only [if_pos h7]
      exact h
    · simp only [if_neg h7]
      by_cases hn : data.timex.length = 0 ∨ data.temp2.length < data.timex.length
      · simp only [if_pos hn]
        exact h
      · simp only [if_neg hn]
        exact phaseBlock_preserves (eventBlocks_preserves _ _ _ _ _ _
          (applyTPBlock_preserves _ _ _ _ _ _
            (chargeBlock_preserves _ _ _ _ h)))

/-- The CHARGE block touches only `CHARGE_BT`/`CHARGE_ET`. -/
theorem lookupA_chargeBlock_ne {c : AList} {k : String}
    (h1 : k ≠ "CHARGE_BT") (h2 : k ≠ "CHARGE_ET")
    (etArr btArr : List (Option ℚ)) (ti : List (Option Int)) (n : Nat) :
    lookupA (chargeBlock c etArr btArr ti n) k = lookupA c k := by
  simp only [chargeBlock]
  rw [lookupA_ite_setIfMissing_ne (Ne.symm h2), lookupA_ite_setIfMissing_ne (Ne.symm h1)]

/-- With `DRY_time` absent from the input and a valid dry-end index, the
event blocks record `DRY_time` as the dry-end elapsed time relative to
charge. -/
theorem eventBlocks_lookup_DRY_time {c : AList} {timex : List ℚ}
    {etArr btArr : List (Option ℚ)} {ti : List (Option Int)} {n : Nat}
    {chargeTime t1 : ℚ}
    (hmiss : lookupA c "DRY_time" = none)
    (h1 : safe_time timex ti n 1 = some t1) :
    lookupA (eventBlocks c timex etArr btArr ti n chargeTime) "DRY_time"
      = some (t1 - chargeTime) := by
  simp (disch := decide) only [eventBlocks, lookupA_setIfMissing_ne,
    lookupA_ite_setIfMissing_ne]
  rw [h1]
  exact lookupA_setIfMissing_self hmiss

/-- With `FCs_time` absent from the input and a valid first-crack index, the
event blocks record `FCs_time` relative to charge. -/
theorem eventBlocks_lookup_FCs_time {c : AList} {timex : List ℚ}
    {etArr btArr : List (Option ℚ)} {ti : List (Option Int)} {n : Nat}
    {chargeTime t2 : ℚ}
    (hmiss : lookupA c "FCs_time" = none)
    (h2 : safe_time timex ti n 2 = some t2) :
    lookupA (eventBlocks c timex etArr btArr ti n chargeTime) "FCs_time"
      = some (t2 - chargeTime) := by
  simp (disch := decide) only [eventBlocks, lookupA_setIfMissing_ne,
    lookupA_ite_setIfMissing_ne]
  rw [h2]
  apply lookupA_setIfMissing_self
  simp (disch := decide) only [lookupA_setIfMissing_ne, lookupA_ite_setIfMissing_ne]
  exact hmiss

/-- With `DROP_time` absent from the input and a valid drop index, the event
blocks record `DROP_time` relative to charge. -/
theorem eventBlocks_lookup_DROP_time {c : AList} {timex : List ℚ}
    {etArr btArr : List (Option ℚ)} {ti : List (Option Int)} {n : Nat}
    {chargeTime t6 : ℚ}
    (hmiss : lookupA c "DROP_time" = none)
    (h6 : safe_time timex ti n 6 = some t6) :
    lookupA (eventBlocks c timex etArr btArr ti n chargeTime) "DROP_time"
      = some (t6 - chargeTime) := by
  simp (disch := decide) only [eventBlocks, lookupA_setIfMissing_ne,
    lookupA_ite_setIfMissing_ne]
  rw [h6]
  apply lookupA_setIfMissing_self
  simp (disch := decide) only [lookupA_setIfMissing_ne, lookupA_ite_setIfMissing_ne]
  exact hmiss

/-- With `totaltime` absent from the input and a valid drop index, the event
blocks record `totaltime` relative to charge. -/
theorem eventBlocks_lookup_totaltime {c : AList} {timex : List ℚ}
    {etArr btArr : List (Option ℚ)} {ti : List (Option Int)} {n : Nat}
    {chargeTime t6 : ℚ}
    (hmiss : lookupA c "totaltime" = none)
    (h6 : safe_time timex ti n 6 = some t6) :
    lookupA (eventBlocks c timex etArr btArr ti n chargeTime) "totaltime"
      = some (t6 - chargeTime) := by
  simp (disch := decide) only [eventBlocks, lookupA_setIfMissing_ne,
    lookupA_ite_setIfMissing_ne]
  rw [h6]
  apply lookupA_setIfMissing_self
  simp (disch := decide) only [lookupA_setIfMissing_ne, lookupA_ite_setIfMissing_ne]
  exact hmiss

/-- The phase block derives the three phase durations from the event times
already recorded, and preserves the event times themselves. -/
theorem phaseBlock_lookups {c : AList} {dv fv pv tv : ℚ}
    (hdry : lookupA c "DRY_time" = some dv)
    (hfcs : lookupA c "FCs_time" = some fv)
    (hdrop : lookupA c "DROP_time" = some pv)
    (htot : lookupA c "totaltime" = some tv)
    (hpv : pv ≠ 0)
    (hm1 : lookupA c "dryphasetime" = none)
    (hm2 : lookupA c "midphasetime" = none)
    (hm3 : lookupA c "finishphasetime" = none) :
    lookupA (phaseBlock c) "dryphasetime" = some dv ∧
    lookupA (phaseBlock c) "midphasetime" = some (fv - dv) ∧
    lookupA (phaseBlock c) "finishphasetime" = some (pv - fv) ∧
    lookupA (phaseBlock c) "DROP_time" = some pv ∧
    lookupA (phaseBlock c) "totaltime" = some tv := by
  have hpyor : pyOr (some pv) (some tv) = some pv := by
    simp [pyOr, pyTruthy, hpv]
  refine ⟨?_, ?_, ?_, ?_, ?_⟩
  · simp only [phaseBlock, hdry, hfcs, hdrop, htot, hpyor]
    rw [lookupA_setIfMissing_ne (by decide), lookupA_setIfMissing_ne (by decide)]
    exact lookupA_setIfMissing_self hm1
  · simp only [phaseBlock, hdry, hfcs, hdrop, htot, hpyor]
    rw [lookupA_setIfMissing_ne (by decide)]
    apply lookupA_setIfMissing_self
    rw [lookupA_setIfMissing_ne (by decide)]
    exact hm2
  · simp only [phaseBlock, hdry, hfcs, hdrop, htot, hpyor]
    apply lookupA_setIfMissing_self
    rw [lookupA_setIfMissing_ne (by decide), lookupA_setIfMissing_ne (by decide)]
    exact hm3
  · exact phaseBlock_preserves hdrop
  · exact phaseBlock_preserves htot

/-- C8 witness: a concrete document whose `computed` already carries
`DRY_time` keeps that exact value through the phase computer. -/
theorem c8_computed_first_writer_wins_witness :
    lookupA (compute_computed_from_timeindex
      { timex := [0, 10, 20, 30, 40, 50, 60, 70]
        temp1 := [some 100, some 110, some 120, some 130, some 140, some 150, some 160, some 170]
        temp2 := [some 90, some 95, some 100, some 105, some 110, some 115, some 120, some 125]
        timeindex := some [some 0, some 1, some 2, some 3, none, none, some 6, none]
        computed := [("DRY_time", 42)] }).computed "DRY_time" = some 42 :=
  c8_computed_first_writer_wins _ "DRY_time" 42 (by decide)

/-- General phase-derivation lemma: for a valid event-index profile document
with no precomputed values, the phase computer records dry = dry-end event
time, middle = first-crack-start − dry-end, finish = drop −
first-crack-start (event times relative to the charge index), and the
enrichment step derives the development ratio as `finish / total × 100`
rounded to one decimal. -/
theorem phase_durations_spec (data : ProfileDoc) (ti : List (Option Int))
    (t1 t2 t6 tc : ℚ)
    (hcomp : data.computed = [])
    (hti : data.timeindex = some ti)
    (h7 : ¬ ti.length < 7)
    (hn : ¬ (data.timex.length = 0 ∨ data.temp2.length < data.timex.length))
    (hc : data.timex.get? (chargeIdxOf ti data.timex.length) = some tc)
    (h1 : safe_time data.timex ti data.timex.length 1 = some t1)
    (h2 : safe_time data.timex ti data.timex.length 2 = some t2)
    (h6 : safe_time data.timex ti data.timex.length 6 = some t6)
    (hlt : tc < t6) :
    lookupA (compute_computed_from_timeindex data).computed "dryphasetime"
      = some (t1 - tc) ∧
    lookupA (compute_computed_from_timeindex data).computed "midphasetime"
      = some ((t2 - tc) - (t1 - tc)) ∧
    lookupA (compute_computed_from_timeindex data).computed "finishphasetime"
      = some ((t6 - tc) - (t2 - tc)) ∧
    dev_ratio_from_computed (compute_computed_from_timeindex data).computed
      = some (round1 (((t6 - tc) - (t2 - tc)) / (t6 - tc) * 100)) := by
  have hne : t6 - tc ≠ 0 := sub_ne_zero.mpr (ne_of_gt hlt)
  have hout : (compute_computed_from_timeindex data).computed
      = phaseBlock (eventBlocks
          (applyTPBlock (chargeBlock data.computed data.temp1 data.temp2 ti data.timex.length)
            data.timex data.temp1 data.temp2 (chargeIdxOf ti data.timex.length)
            data.timex.length tc)
          data.timex data.temp1 data.temp2 ti data.timex.length tc) := by
    simp only [compute_computed_from_timeindex, hti, if_neg h7, if_neg hn, hc,
      Option.getD_some]
  set cIn := applyTPBlock (chargeBlock data.computed data.temp1 data.temp2 ti data.timex.length)
      data.timex data.temp1 data.temp2 (chargeIdxOf ti data.timex.length)
      data.timex.length tc with hcIn
  have hmiss : ∀ k, k ≠ "CHARGE_BT" → k ≠ "CHARGE_ET" → k ≠ "TP_time" →
      k ≠ "TP_BT" → k ≠ "TP_ET" → lookupA cIn k = none := by
    intro k k1 k2 k3 k4 k5
    rw [hcIn, lookupA_applyTPBlock_ne k3 k4 k5, lookupA_chargeBlock_ne k1 k2, hcomp]
    rfl
  set E := eventBlocks cIn data.timex data.temp1 data.temp2 ti data.timex.length tc with hE
  have hDRY : lookupA E "DRY_time" = some (t1 - tc) := by
    rw [hE]
    exact eventBlocks_lookup_DRY_time
      (hmiss _ (by decide) (by decide) (by decide) (by decide) (by decide)) h1
  have hFCs : lookupA E "FCs_time" = some (t2 - tc) := by
    rw [hE]
    exact eventBlocks_lookup_FCs_time
      (hmiss _ (by decide) (by decide) (by decide) (by decide) (by decide)) h2
  have hDROP : lookupA E "DROP_time" = some (t6 - tc) := by
    rw [hE]
    exact eventBlocks_lookup_DROP_time
      (hmiss _ (by decide) (by decide) (by decide) (by decide) (by decide)) h6
  have hTOT : lookupA E "totaltime" = some (t6 - tc) := by
    rw [hE]
    exact eventBlocks_lookup_totaltime
      (hmiss _ (by decide) (by decide) (by decide) (by decide) (by decide)) h6
  have hmE1 : lookupA E "dryphasetime" = none := by
    rw [hE]
    simp (disch := decide) only [eventBlocks, lookupA_setIfMissing_ne,
      lookupA_ite_setIfMissing_ne]
    exact hmiss _ (by decide) (by decide) (by decide) (by decide) (by decide)
  have hmE2 : lookupA E "midphasetime" = none := by
    rw [hE]
    simp (disch := decide) only [eventBlocks, lookupA_setIfMissing_ne,
      lookupA_ite_setIfMissing_ne]
    exact hmiss _ (by decide) (by decide) (by decide) (by decide) (by decide)
  have hmE3 : lookupA E "finishphasetime" = none := by
    rw [hE]
    simp (disch := decide) only [eventBlocks, lookupA_setIfMissing_ne,
      lookupA_ite_setIfMissing_ne]
    exact hmiss _ (by decide) (by decide) (by decide) (by decide) (by decide)
  obtain ⟨p1, p2, p3, p4, p5⟩ :=
    phaseBlock_lookups hDRY hFCs hDROP hTOT hne hmE1 hmE2 hmE3
  have hpy : pyOr (some (t6 - tc)) (some (t6 - tc)) = some (t6 - tc) := by
    simp [pyOr, pyTruthy, hne]
  refine ⟨?_, ?_, ?_, ?_⟩
  · rw [hout]; exact p1
  · rw [hout]; exact p2
  · rw [hout]; exact p3
  · rw [hout]
    simp only [dev_ratio_from_computed, p3, p4, p5, hpy]
    rw [if_pos ⟨hne, by linarith⟩]

/-- C7 (amended): for a valid event-index profile document with no
precomputed values, the derived phase durations satisfy dry = dry-end event
time, middle = first-crack-start − dry-end, finish = drop − first-crack-start
(event times measured relative to the charge index), and the derived
development ratio is `100 × finish ÷ total`, rounded to one decimal place
(the rounding is the amendment to the claim). -/
theorem c7_phase_durations (data : ProfileDoc) (ti : List (Option Int))
    (t1 t2 t6 tc : ℚ)
    (hcomp : data.computed = [])
    (hti : data.timeindex = some ti)
    (h7 : ¬ ti.length < 7)
    (hn : ¬ (data.timex.length = 0 ∨ data.temp2.length < data.timex.length))
    (hc : data.timex.get? (chargeIdxOf ti data.timex.length) = some tc)
    (h1 : safe_time data.timex ti data.timex.length 1 = some t1)
    (h2 : safe_time data.timex ti data.timex.length 2 = some t2)
    (h6 : safe_time data.timex ti data.timex.length 6 = some t6)
    (hlt : tc < t6) :
    lookupA (compute_computed_from_timeindex data).computed "dryphasetime"
      = some (t1 - tc) ∧
    lookupA (compute_computed_from_timeindex data).computed "midphasetime"
      = some ((t2 - tc) - (t1 - tc)) ∧
    lookupA (compute_computed_from_timeindex data).computed "finishphasetime"
      = some ((t6 - tc) - (t2 - tc)) ∧
    dev_ratio_from_computed (compute_computed_from_timeindex data).computed
      = some (round1 (((t6 - tc) - (t2 - tc)) / (t6 - tc) * 100)) :=
  phase_durations_spec data ti t1 t2 t6 tc hcomp hti h7 hn hc h1 h2 h6 hlt

/-- C7 counterexample: on a document with dry end at 60 s, first crack at
120 s and drop at 180 s, the derived development ratio is `33.3` (rounded to
one decimal), which differs from the exact `100 × finish ÷ total = 100/3`
the claim states. -/
theorem c7_phase_durations_counterexample :
    dev_ratio_from_computed (compute_computed_from_timeindex
      { timex := [0, 60, 120, 180]
        temp1 := []
        temp2 := [some 1, some 1, some 1, some 1]
        timeindex := some [some 0, some 1, some 2, none, none, none, some 3, none]
        computed := [] }).computed = some (333 / 10) ∧
    (333 / 10 : ℚ) ≠ 100 * ((180 - 0) - (120 - 0)) / (180 - 0) := by
  obtain ⟨-, -, -, h4⟩ := phase_durations_spec
    { timex := [0, 60, 120, 180]
      temp1 := []
      temp2 := [some 1, some 1, some 1, some 1]
      timeindex := some [some 0, some 1, some 2, none, none, none, some 3, none]
      computed := [] }
    [some 0, some 1, some 2, none, none, none, some 3, none]
    60 120 180 0 rfl rfl (by decide) (by decide)
    (by decide) (by decide) (by decide) (by decide) (by decide)
  rw [h4]
  constructor
  · rw [show round1 (((180 : ℚ) - 0 - (120 - 0)) / (180 - 0) * 100) = 333 / 10 by
      rw [round1, roundTo, show ((180 : ℚ) - 0 - (120 - 0)) / (180 - 0) * 100 * 10
        + 1 / 2 = 2003 / 6 by norm_num]
      norm_num [Int.floor_eq_iff]]
  · norm_num

/-- C7 witness: the amended statement evaluated on the same concrete
document. -/
theorem c7_phase_durations_witness :
    lookupA (compute_computed_from_timeindex
      { timex := [0, 60, 120, 180]
        temp1 := []
        temp2 := [some 1, some 1, some 1, some 1]
        timeindex := some [some 0, some 1, some 2, none, none, none, some 3, none]
        computed := [] }).computed "dryphasetime" = some (60 - 0) ∧
    lookupA (compute_computed_from_timeindex
      { timex := [0, 60, 120, 180]
        temp1 := []
        temp2 := [some 1, some 1, some 1, some 1]
        timeindex := some [some 0, some 1, some 2, none, none, none, some 3, none]
        computed := [] }).computed "midphasetime" = some ((120 - 0) - (60 - 0)) ∧
    lookupA (compute_computed_from_timeindex
      { timex := [0, 60, 120, 180]
        temp1 := []
        temp2 := [some 1, some 1, some 1, some 1]
        timeindex := some [some 0, some 1, some 2, none, none, none, some 3, none]
        computed := [] }).computed "finishphasetime" = some ((180 - 0) - (120 - 0)) ∧
    dev_ratio_from_computed (compute_computed_from_timeindex
      { timex := [0, 60, 120, 180]
        temp1 := []
        temp2 := [some 1, some 1, some 1, some 1]
        timeindex := some [some 0, some 1, some 2, none, none, none, some 3, none]
        computed := [] }).computed
      = some (round1 (((180 - 0) - (120 - 0)) / (180 - 0) * 100)) :=
  c7_phase_durations
    { timex := [0, 60, 120, 180]
      temp1 := []
      temp2 := [some 1, some 1, some 1, some 1]
      timeindex := some [some 0, some 1, some 2, none, none, none, some 3, none]
      computed := [] }
    [some 0, some 1, some 2, none, none, none, some 3, none]
    60 120 180 0 rfl rfl (by decide) (by decide)
    (by decide) (by decide) (by decide) (by decide) (by decide)

/-! ## Inventory lemmas -/

/-- Every ingredient's stock is non-negative. -/
def stocksNonneg (coffees : List Coffee) : Prop :=
  ∀ c ∈ coffees, 0 ≤ c.stockWeightKg

/-- Every stored roast's ledger snapshot records only non-negative
quantities. -/
def ledgersNonneg (roasts : List StoredRoast) : Prop :=
  ∀ r ∈ roasts, ∀ d ∈ r.deductedComponents, 0 ≤ d.deductedWeightKg

/-- Every stored blend recipe carries non-negative percentages (enforced at
blend creation: `RecipeComponent.percentage` is validated `ge=1`). -/
def recipesNonneg (blends : List BlendEnt) : Prop :=
  ∀ b ∈ blends, ∀ comp ∈ b.recipe, 0 ≤ comp.percentage

instance (coffees : List Coffee) : Decidable (stocksNonneg coffees) := by
  unfold stocksNonneg; infer_instance

instance (roasts : List StoredRoast) : Decidable (ledgersNonneg roasts) := by
  unfold ledgersNonneg; infer_instance

instance (blends : List BlendEnt) : Decidable (recipesNonneg blends) := by
  unfold recipesNonneg; infer_instance

theorem round3_nonneg {q : ℚ} (hq : 0 ≤ q) : 0 ≤ round3 q := by
  unfold round3 roundTo
  apply div_nonneg _ (by norm_num)
  have : (0 : ℤ) ≤ ⌊q * 1000 + 1 / 2⌋ := by
    apply Int.floor_nonneg.mpr
    have : (0 : ℚ) ≤ q * 1000 := by positivity
    linarith
  exact_mod_cast this

/-- A rational that is an integer number of thousandths is fixed by the
3-decimal quantization. -/
theorem round3_eq_self {q : ℚ} (k : ℤ) (hk : q * 1000 = (k : ℚ)) : round3 q = q := by
  unfold round3 roundTo
  rw [hk, Int.floor_int_add, show ⌊(1/2 : ℚ)⌋ = 0 by norm_num [Int.floor_eq_iff]]
  push_cast
  rw [add_zero, ← hk]
  ring

/-- Fold preservation of an invariant, with membership of the element. -/
theorem foldl_preserves_mem {α β : Type _} (l : List α) (f : β → α → β)
    (P : β → Prop) (hf : ∀ b a, a ∈ l → P b → P (f b a)) (b : β) (hb : P b) :
    P (l.foldl f b) := by
  induction l generalizing b with
  | nil => exact hb
  | cons x xs ih =>
    exact ih (fun b a ha hb => hf b a (List.mem_cons_of_mem _ ha) hb) _
      (hf b x (List.mem_cons_self _ _) hb)

theorem updateCoffeeStock_nonneg {coffees : List Coffee} {cid : CoffeeId}
    {q : ℚ} (hq : 0 ≤ q) (h : stocksNonneg coffees) :
    stocksNonneg (updateCoffeeStock coffees cid q) := by
  intro c hc
  simp only [updateCoffeeStock, List.mem_map] at hc
  obtain ⟨a, ha, rfl⟩ := hc
  split
  · exact round3_nonneg hq
  · exact h a ha

/-- A found coffee is a member with its stock. -/
theorem findCoffeeById_mem {coffees : List Coffee} {cid : CoffeeId} {c : Coffee}
    (h : findCoffeeById coffees cid = some c) : c ∈ coffees :=
  List.mem_of_find?_eq_some h

theorem findCoffeeByHr_mem {coffees : List Coffee} {hr : String} {c : Coffee}
    (h : findCoffeeByHr coffees hr = some c) : c ∈ coffees :=
  List.mem_of_find?_eq_some h

theorem deductSingle_stocks_nonneg (coffees : List Coffee) (cid : CoffeeId)
    (amount : ℚ) (h : stocksNonneg coffees) :
    stocksNonneg (deductSingle coffees cid amount).1 := by
  unfold deductSingle
  split
  · exact h
  · split
    · rename_i coffee hfind hle
      apply updateCoffeeStock_nonneg _ h
      linarith
    · exact h

theorem deductSingle_components_nonneg (coffees : List Coffee) (cid : CoffeeId)
    (amount : ℚ) (hamt : 0 ≤ amount) :
    ∀ d ∈ (deductSingle coffees cid amount).2.1, 0 ≤ d.deductedWeightKg := by
  unfold deductSingle
  split
  · simp
  · split
    · intro d hd
      simp only [List.mem_singleton] at hd
      subst hd
      exact hamt
    · simp

theorem deductBlendSpec_invariant (ings : List BlendSpecIngredient)
    (coffees : List Coffee) (amount : ℚ) (hamt : 0 ≤ amount)
    (h : stocksNonneg coffees) :
    stocksNonneg (deductBlendSpec coffees ings amount).1 ∧
    ∀ d ∈ (deductBlendSpec coffees ings amount).2.1, 0 ≤ d.deductedWeightKg := by
  unfold deductBlendSpec
  refine foldl_preserves_mem ings _
    (fun (acc : List Coffee × List DeductedComponent × List CoffeeId) =>
      stocksNonneg acc.1 ∧ ∀ d ∈ acc.2.1, 0 ≤ d.deductedWeightKg)
    ?_ (coffees, [], []) ⟨h, by simp⟩
  rintro ⟨cs, comps, warns⟩ ing _ ⟨h1, h2⟩
  unfold deductBlendSpecStep
  dsimp only
  split
  · exact ⟨h1, h2⟩
  · split
    · exact ⟨h1, h2⟩
    · rename_i hratio
      split
      · exact ⟨h1, h2⟩
      · split
        · rename_i compCoffee hfind hstock
          refine ⟨?_, ?_⟩
          · apply updateCoffeeStock_nonneg _ h1
            linarith
          · intro d hd
            rcases List.mem_append.mp hd with hd | hd
            · exact h2 d hd
            · simp only [List.mem_singleton] at hd
              subst hd
              apply round3_nonneg
              have hrpos : 0 < ing.ratio := lt_of_not_le hratio
              positivity
        · exact ⟨h1, h2⟩

theorem deductBlendRecipe_invariant (recipe : List RecipeComponent)
    (coffees : List Coffee) (amount : ℚ) (hamt : 0 ≤ amount)
    (hrec : ∀ comp ∈ recipe, 0 ≤ comp.percentage)
    (h : stocksNonneg coffees) :
    stocksNonneg (deductBlendRecipe coffees recipe amount).1 ∧
    ∀ d ∈ (deductBlendRecipe coffees recipe amount).2, 0 ≤ d.deductedWeightKg := by
  unfold deductBlendRecipe
  refine foldl_preserves_mem recipe _
    (fun (acc : List Coffee × List DeductedComponent) =>
      stocksNonneg acc.1 ∧ ∀ d ∈ acc.2, 0 ≤ d.deductedWeightKg)
    ?_ (coffees, []) ⟨h, by simp⟩
  rintro ⟨cs, comps⟩ comp hmem ⟨h1, h2⟩
  unfold deductBlendRecipeStep
  dsimp only
  split
  · exact ⟨h1, h2⟩
  · split
    · rename_i compCoffee hfind hstock
      refine ⟨?_, ?_⟩
      · apply updateCoffeeStock_nonneg _ h1
        linarith
      · intro d hd
        rcases List.mem_append.mp hd with hd | hd
        · exact h2 d hd
        · simp only [List.mem_singleton] at hd
          subst hd
          apply round3_nonneg
          have hp := hrec comp hmem
          positivity
    · exact ⟨h1, h2⟩

theorem deductBlendEntity_invariant (coffees : List Coffee)
    (blends : List BlendEnt) (userId : UserId) (bid : BlendId) (amount : ℚ)
    (hamt : 0 ≤ amount) (hb : recipesNonneg blends) (h : stocksNonneg coffees) :
    stocksNonneg (deductBlendEntity coffees blends userId bid amount).1 ∧
    ∀ d ∈ (deductBlendEntity coffees blends userId bid amount).2,
      0 ≤ d.deductedWeightKg := by
  unfold deductBlendEntity
  cases hfind : findBlend blends bid userId with
  | none => exact ⟨h, by simp⟩
  | some blend =>
    exact deductBlendRecipe_invariant blend.recipe coffees amount hamt
      (hb blend (List.mem_of_find?_eq_some hfind)) h

theorem restoreComponents_nonneg (comps : List DeductedComponent)
    (coffees : List Coffee) (hcomps : ∀ d ∈ comps, 0 ≤ d.deductedWeightKg)
    (h : stocksNonneg coffees) :
    stocksNonneg (restoreComponents coffees comps) := by
  unfold restoreComponents
  refine foldl_preserves_mem comps _ stocksNonneg ?_ coffees h
  intro cs comp hmem h1
  unfold restoreComponentStep
  cases hfind : findCoffeeById cs comp.coffeeId with
  | none => exact h1
  | some coffee =>
    apply updateCoffeeStock_nonneg _ h1
    have := h1 coffee (findCoffeeById_mem hfind)
    have := hcomps comp hmem
    linarith

theorem resolveCoffee_roasts (s : ServerState) (c : Option String) (n : CoffeeId) :
    (resolveCoffee s c n).1.roasts = s.roasts := by
  unfold resolveCoffee
  repeat' split
  all_goals rfl

theorem resolveCoffee_blends (s : ServerState) (c : Option String) (n : CoffeeId) :
    (resolveCoffee s c n).1.blends = s.blends := by
  unfold resolveCoffee
  repeat' split
  all_goals rfl

theorem resolveCoffee_cache (s : ServerState) (c : Option String) (n : CoffeeId) :
    (resolveCoffee s c n).1.cache = s.cache := by
  unfold resolveCoffee
  repeat' split
  all_goals rfl

theorem resolveCoffee_stocks_nonneg (s : ServerState) (c : Option String)
    (n : CoffeeId) (hs : stocksNonneg s.coffees) :
    stocksNonneg (resolveCoffee s c n).1.coffees := by
  unfold resolveCoffee
  split
  · exact hs
  · split
    · exact hs
    · intro x hx
      rcases List.mem_append.mp hx with hx | hx
      · exact hs x hx
      · simp only [List.mem_singleton] at hx
        subst hx
        norm_num

theorem deductStep_invariant (coffees : List Coffee) (blends : List BlendEnt)
    (userId : UserId) (coffeeIdVal : Option CoffeeId)
    (blendSpecVal : Option (List BlendSpecIngredient)) (blendIdVal : Option BlendId)
    (amount : ℚ) (hs : stocksNonneg coffees) (hb : recipesNonneg blends) :
    stocksNonneg (deductStep coffees blends userId coffeeIdVal blendSpecVal
      blendIdVal amount).1 ∧
    ∀ d ∈ (deductStep coffees blends userId coffeeIdVal blendSpecVal
      blendIdVal amount).2.1, 0 ≤ d.deductedWeightKg := by
  unfold deductStep
  split
  · rename_i hcond
    exact ⟨deductSingle_stocks_nonneg _ _ _ hs,
      deductSingle_components_nonneg _ _ _ (le_of_lt hcond.2)⟩
  · split
    · rename_i hcond
      exact deductBlendSpec_invariant _ _ _ (le_of_lt hcond.2) hs
    · split
      · rename_i hcond
        have := deductBlendEntity_invariant coffees blends userId
          (blendIdVal.getD 0) amount (le_of_lt hcond.2) hb hs
        exact ⟨this.1, this.2⟩
      · exact ⟨hs, by simp⟩

theorem fullCreate_invariants (s : ServerState) (userId : UserId)
    (key : Option String) (body : RoastBody) (roastUuid : RoastId)
    (dateVal now : Timestamp) (ncid : CoffeeId)
    (hs : stocksNonneg s.coffees) (hr : ledgersNonneg s.roasts)
    (hb : recipesNonneg s.blends) :
    stocksNonneg (fullCreate s userId key body roastUuid dateVal now ncid).state.coffees ∧
    ledgersNonneg (fullCreate s userId key body roastUuid dateVal now ncid).state.roasts := by
  have hs1 : stocksNonneg (resolveCoffee s body.coffee ncid).1.coffees :=
    resolveCoffee_stocks_nonneg s body.coffee ncid hs
  have hb1 : recipesNonneg (resolveCoffee s body.coffee ncid).1.blends := by
    rw [resolveCoffee_blends]; exact hb
  have hded := deductStep_invariant (resolveCoffee s body.coffee ncid).1.coffees
    (resolveCoffee s body.coffee ncid).1.blends userId
    (resolveCoffee s body.coffee ncid).2
    (match body.blend with
     | .spec ings => some ings
     | _ => none)
    (match body.blend with
     | .uuidStr (some bu) =>
       (findBlend (resolveCoffee s body.coffee ncid).1.blends bu userId).map (·.id)
     | _ => none)
    (body.amountField.getD 0) hs1 hb1
  constructor
  · exact hded.1
  · intro r hrm d hd
    simp only [fullCreate] at hrm
    rcases List.mem_append.mp hrm with hrm | hrm
    · rw [resolveCoffee_roasts] at hrm
      exact hr r hrm d hd
    · simp only [List.mem_singleton] at hrm
      subst hrm
      exact hded.2 d hd

theorem applyPartialUpdate_deductedComponents (ex : StoredRoast)
    (body : RoastBody) (now : Timestamp) :
    (applyPartialUpdate ex body now).deductedComponents = ex.deductedComponents := by
  simp only [applyPartialUpdate]
  repeat' split
  all_goals rfl

/-- C1: starting from a state with non-negative stocks (and well-formed
ledgers and recipes, as creation and the blend validator enforce), every
operation of the core — roast creation with any of the three deduction
policies, and roast deletion with stock restoration — keeps every
ingredient's stock non-negative, and keeps every recorded ledger quantity
non-negative (so restoration only ever adds). -/
theorem c1_stock_nonnegativity (s : ServerState)
    (hs : stocksNonneg s.coffees) (hl : ledgersNonneg s.roasts)
    (hb : recipesNonneg s.blends) (userId : UserId) (key : Option String)
    (rawBody : RoastBody) (now : Timestamp) (ncid : CoffeeId) (rid : RoastId) :
    (stocksNonneg (create_or_update_roast s userId key rawBody now ncid).state.coffees ∧
     ledgersNonneg (create_or_update_roast s userId key rawBody now ncid).state.roasts) ∧
    (stocksNonneg (delete_roast s rid).2.coffees ∧
     ledgersNonneg (delete_roast s rid).2.roasts) := by
  constructor
  · simp only [create_or_update_roast]
    split
    · exact ⟨hs, hl⟩
    · split
      · exact ⟨hs, hl⟩
      · split
        · exact ⟨hs, hl⟩
        · split
          · -- partial-update branch vs create
            split
            · -- existing roast: partial update
              rename_i ex hex
              constructor
              · exact hs
              · intro r hrm d hd
                simp only [List.mem_map] at hrm
                obtain ⟨a, ha, rfl⟩ := hrm
                split at hd
                · rw [applyPartialUpdate_deductedComponents] at hd
                  exact hl ex (List.mem_of_find?_eq_some hex) d hd
                · exact hl a ha d hd
            · -- no existing roast: date recovery then full create
              split
              · exact fullCreate_invariants _ _ _ _ _ _ _ _ hs hl hb
              · split
                · exact fullCreate_invariants _ _ _ _ _ _ _ _ hs hl hb
                · exact ⟨hs, hl⟩
          · split
            · exact ⟨hs, hl⟩
            · split
              · exact ⟨hs, hl⟩
              · exact fullCreate_invariants _ _ _ _ _ _ _ _ hs hl hb
  · unfold delete_roast
    split
    · exact ⟨hs, hl⟩
    · rename_i roast hfind
      constructor
      · exact restoreComponents_nonneg _ _
          (hl roast (List.mem_of_find?_eq_some hfind)) hs
      · intro r hrm d hd
        exact hl r (List.mem_of_mem_filter hrm) d hd

/-- C1 witness: a concrete state with one coffee, one blend and one stored
roast, run through a single-ingredient creation and a deletion. -/
theorem c1_stock_nonnegativity_witness :
    (stocksNonneg (create_or_update_roast
        { coffees := [{ id := 1, hrId := "C1001", label := "C1001", stockWeightKg := 10 }]
          blends := [{ id := 5, userId := 7, recipe := [⟨1, 60⟩, ⟨2, 40⟩] }]
          roasts := [{ id := 90, userId := 7, coffeeId := some 1, blendId := none,
                       roastedAt := 0, modifiedAt := some 50, updatedAt := none,
                       greenWeightKg := 2, roastedWeightKg := none, label := "",
                       notes := none, wholeColor := 0, groundColor := 0,
                       cuppingScore := 0, deductedComponents := [⟨1, 2⟩] }]
          cache := [] }
        7 none
        { roastIdField := some 100, idField := none, date := some 60,
          roastedAtField := none, roastdateField := none, modifiedAt := none,
          coffee := some "C1001", blend := .absent, amountField := some (5/2),
          endWeight := none, labelField := none, notesField := none,
          wholeColorField := none, groundColorField := none,
          cuppingScoreField := none }
        61 2).state.coffees ∧
     ledgersNonneg (create_or_update_roast
        { coffees := [{ id := 1, hrId := "C1001", label := "C1001", stockWeightKg := 10 }]
          blends := [{ id := 5, userId := 7, recipe := [⟨1, 60⟩, ⟨2, 40⟩] }]
          roasts := [{ id := 90, userId := 7, coffeeId := some 1, blendId := none,
                       roastedAt := 0, modifiedAt := some 50, updatedAt := none,
                       greenWeightKg := 2, roastedWeightKg := none, label := "",
                       notes := none, wholeColor := 0, groundColor := 0,
                       cuppingScore := 0, deductedComponents := [⟨1, 2⟩] }]
          cache := [] }
        7 none
        { roastIdField := some 100, idField := none, date := some 60,
          roastedAtField := none, roastdateField := none, modifiedAt := none,
          coffee := some "C1001", blend := .absent, amountField := some (5/2),
          endWeight := none, labelField := none, notesField := none,
          wholeColorField := none, groundColorField := none,
          cuppingScoreField := none }
        61 2).state.roasts) ∧
    (stocksNonneg (delete_roast
        { coffees := [{ id := 1, hrId := "C1001", label := "C1001", stockWeightKg := 10 }]
          blends := [{ id := 5, userId := 7, recipe := [⟨1, 60⟩, ⟨2, 40⟩] }]
          roasts := [{ id := 90, userId := 7, coffeeId := some 1, blendId := none,
                       roastedAt := 0, modifiedAt := some 50, updatedAt := none,
                       greenWeightKg := 2, roastedWeightKg := none, label := "",
                       notes := none, wholeColor := 0, groundColor := 0,
                       cuppingScore := 0, deductedComponents := [⟨1, 2⟩] }]
          cache := [] } 90).2.coffees ∧
     ledgersNonneg (delete_roast
        { coffees := [{ id := 1, hrId := "C1001", label := "C1001", stockWeightKg := 10 }]
          blends := [{ id := 5, userId := 7, recipe := [⟨1, 60⟩, ⟨2, 40⟩] }]
          roasts := [{ id := 90, userId := 7, coffeeId := some 1, blendId := none,
                       roastedAt := 0, modifiedAt := some 50, updatedAt := none,
                       greenWeightKg := 2, roastedWeightKg := none, label := "",
                       notes := none, wholeColor := 0, groundColor := 0,
                       cuppingScore := 0, deductedComponents := [⟨1, 2⟩] }]
          cache := [] } 90).2.roasts) :=
  c1_stock_nonnegativity _ (by decide) (by decide) (by decide) 7 none _ 61 2 90

/-! ## C9: goal evaluation degradation -/

/-- C9: goal evaluation of a roast with no active goal returns the Python
`None` ("not evaluated"); with active goals but no resolvable background
profile identifier, or a background identifier whose reference roast does not
exist, it returns the yellow "not evaluated" outcome with an empty goals
list — in no such case a green (pass) or red (fail) verdict. -/
theorem c9_not_evaluated (db : GoalsDb) (roast : GRoast) :
    (db.goals.filter (·.isActive) = [] →
      check_roast_against_goals db roast = none) ∧
    (db.goals.filter (·.isActive) ≠ [] → resolveBackgroundUuid roast = none →
      check_roast_against_goals db roast = some ⟨.yellow, []⟩) ∧
    (∀ bu, db.goals.filter (·.isActive) ≠ [] →
      resolveBackgroundUuid roast = some bu →
      get_reference_profile db bu = none →
      check_roast_against_goals db roast = some ⟨.yellow, []⟩) ∧
    (Status.yellow ≠ Status.green ∧ Status.yellow ≠ Status.red) := by
  refine ⟨?_, ?_, ?_, by decide⟩
  · intro h
    simp [check_roast_against_goals, h]
  · intro hne hbu
    simp only [check_roast_against_goals, hbu]
    rw [if_neg hne]
  · intro bu hne hbu href
    simp only [check_roast_against_goals, hbu, href]
    rw [if_neg hne]

/-- C9 witness: one active goal, a roast with no background profile. -/
theorem c9_not_evaluated_witness :
    check_roast_against_goals
      { goals := [{ id := 1, name := "g", isActive := true,
                    failedStatus := "failed", missingValueStatus := "warning",
                    parameters := [("drop_temp", ⟨true, 10⟩)] }]
        roasts := [] }
      { id := 2, isReference := false, chargeTemp := none, dropTemp := none,
        TPTemp := none, DRYTemp := none, FCsTemp := none, dropTime := none,
        FCsTime := none, DEVTime := none, DEVRatio := none, DRYTime := none,
        greenWeightKg := none, roastedWeightKg := none, weightLoss := none,
        wholeColor := 0, groundColor := 0, alogProfile := none,
        blobProfile := none } = some ⟨.yellow, []⟩ :=
  (c9_not_evaluated _ _).2.1 (by decide) rfl

/-! ## C3: conflict monotonicity -/

/-- C3: for an upsert whose identifier matches a stored roast carrying
`modified_at = T` (and which is not short-circuited by the idempotency
cache), a payload `modified` timestamp strictly older than `T` is rejected
with a 409 conflict carrying both timestamps and leaves the whole store —
the roast and every ingredient stock — unchanged; a payload timestamp that
is absent or not older never yields a conflict rejection. -/
theorem c3_conflict_monotonicity (s : ServerState) (userId : UserId)
    (key : Option String) (rawBody : RoastBody) (now : Timestamp)
    (ncid : CoffeeId) (rid : RoastId) (ex : StoredRoast) (T : Timestamp)
    (hmiss : key.bind (fun k => cacheLookup s.cache k aroastEndpoint) = none)
    (hrid : (rawBody.roastIdField <|> rawBody.idField) = some rid)
    (hex : findRoast s.roasts rid userId = some ex)
    (hT : ex.modifiedAt = some T) :
    (∀ C, rawBody.modifiedAt = some C → C < T →
      create_or_update_roast s userId key rawBody now ncid
        = ⟨409, .conflict T C, s, []⟩) ∧
    ((rawBody.modifiedAt = none ∨ ∃ C, rawBody.modifiedAt = some C ∧ T ≤ C) →
      (create_or_update_roast s userId key rawBody now ncid).status ≠ 409 ∧
      ∀ a b, (create_or_update_roast s userId key rawBody now ncid).body
        ≠ .conflict a b) := by
  have hmod : (restore_suppressed_fields rawBody).modifiedAt = rawBody.modifiedAt := rfl
  constructor
  · intro C hC hlt
    simp only [create_or_update_roast, hmiss, hrid, hex, hmod, hC, hT,
      Option.some_orElse, if_pos hlt]
  · intro hge
    have hconf :
        (match findRoast s.roasts rid userId, (restore_suppressed_fields rawBody).modifiedAt with
         | some ex, some clientModified =>
           match ex.modifiedAt <|> ex.updatedAt with
           | some serverModified =>
             if clientModified < serverModified then some (serverModified, clientModified)
             else none
           | none => none
         | _, _ => (none : Option (Timestamp × Timestamp))) = none := by
      rcases hge with hnone | ⟨C, hC, hle⟩
      · simp [hex, hmod, hnone]
      · simp [hex, hmod, hC, hT, not_lt_of_le hle]
    simp only [create_or_update_roast, hmiss, hrid]
    constructor
    · -- status is never 409 on the non-conflict paths
      split
      · rename_i p hp
        rw [hconf] at hp
        exact Option.noConfusion hp
      · split
        · split
          · simp [HandlerResult.status]
          · split
            · simp [fullCreate]
            · split
              · simp [fullCreate]
              · simp
        · split
          · simp
          · split
            · simp
            · simp [fullCreate]
    · -- body is never a conflict on the non-conflict paths
      intro a b
      split
      · rename_i p hp
        rw [hconf] at hp
        exact Option.noConfusion hp
      · split
        · split
          · simp
          · split
            · simp [fullCreate]
            · split
              · simp [fullCreate]
              · simp
        · split
          · simp
          · split
            · simp
            · simp [fullCreate]

/-- C3 witness: stored roast with `modified_at = 50`; a write stamped 40 is
rejected with both timestamps and no mutation, and a write stamped 60 does
not conflict. -/
theorem c3_conflict_monotonicity_witness :
    (create_or_update_roast
      { coffees := [], blends := [],
        roasts := [{ id := 100, userId := 7, coffeeId := none, blendId := none,
                     roastedAt := 0, modifiedAt := some 50, updatedAt := none,
                     greenWeightKg := 0, roastedWeightKg := none, label := "",
                     notes := none, wholeColor := 0, groundColor := 0,
                     cuppingScore := 0, deductedComponents := [] }]
        cache := [] }
      7 none
      { roastIdField := some 100, idField := none, date := some 60,
        roastedAtField := none, roastdateField := none, modifiedAt := some 40,
        coffee := none, blend := .absent, amountField := none,
        endWeight := none, labelField := none, notesField := none,
        wholeColorField := none, groundColorField := none,
        cuppingScoreField := none }
      61 2)
      = ⟨409, .conflict 50 40,
          { coffees := [], blends := [],
            roasts := [{ id := 100, userId := 7, coffeeId := none, blendId := none,
                         roastedAt := 0, modifiedAt := some 50, updatedAt := none,
                         greenWeightKg := 0, roastedWeightKg := none, label := "",
                         notes := none, wholeColor := 0, groundColor := 0,
                         cuppingScore := 0, deductedComponents := [] }]
            cache := [] }, []⟩ ∧
    (create_or_update_roast
      { coffees := [], blends := [],
        roasts := [{ id := 100, userId := 7, coffeeId := none, blendId := none,
                     roastedAt := 0, modifiedAt := some 50, updatedAt := none,
                     greenWeightKg := 0, roastedWeightKg := none, label := "",
                     notes := none, wholeColor := 0, groundColor := 0,
                     cuppingScore := 0, deductedComponents := [] }]
        cache := [] }
      7 none
      { roastIdField := some 100, idField := none, date := some 60,
        roastedAtField := none, roastdateField := none, modifiedAt := some 60,
        coffee := none, blend := .absent, amountField := none,
        endWeight := none, labelField := none, notesField := none,
        wholeColorField := none, groundColorField := none,
        cuppingScoreField := none }
      61 2).status ≠ 409 := by
  constructor
  · exact (c3_conflict_monotonicity
      { coffees := [], blends := [],
        roasts := [{ id := 100, userId := 7, coffeeId := none, blendId := none,
                     roastedAt := 0, modifiedAt := some 50, updatedAt := none,
                     greenWeightKg := 0, roastedWeightKg := none, label := "",
                     notes := none, wholeColor := 0, groundColor := 0,
                     cuppingScore := 0, deductedComponents := [] }]
        cache := [] }
      7 none
      { roastIdField := some 100, idField := none, date := some 60,
        roastedAtField := none, roastdateField := none, modifiedAt := some 40,
        coffee := none, blend := .absent, amountField := none,
        endWeight := none, labelField := none, notesField := none,
        wholeColorField := none, groundColorField := none,
        cuppingScoreField := none }
      61 2 100
      { id := 100, userId := 7, coffeeId := none, blendId := none,
        roastedAt := 0, modifiedAt := some 50, updatedAt := none,
        greenWeightKg := 0, roastedWeightKg := none, label := "",
        notes := none, wholeColor := 0, groundColor := 0,
        cuppingScore := 0, deductedComponents := [] }
      50 rfl rfl rfl rfl).1 40 rfl (by decide)
  · exact ((c3_conflict_monotonicity
      { coffees := [], blends := [],
        roasts := [{ id := 100, userId := 7, coffeeId := none, blendId := none,
                     roastedAt := 0, modifiedAt := some 50, updatedAt := none,
                     greenWeightKg := 0, roastedWeightKg := none, label := "",
                     notes := none, wholeColor := 0, groundColor := 0,
                     cuppingScore := 0, deductedComponents := [] }]
        cache := [] }
      7 none
      { roastIdField := some 100, idField := none, date := some 60,
        roastedAtField := none, roastdateField := none, modifiedAt := some 60,
        coffee := none, blend := .absent, amountField := none,
        endWeight := none, labelField := none, notesField := none,
        wholeColorField := none, groundColorField := none,
        cuppingScoreField := none }
      61 2 100
      { id := 100, userId := 7, coffeeId := none, blendId := none,
        roastedAt := 0, modifiedAt := some 50, updatedAt := none,
        greenWeightKg := 0, roastedWeightKg := none, label := "",
        notes := none, wholeColor := 0, groundColor := 0,
        cuppingScore := 0, deductedComponents := [] }
      50 rfl rfl rfl rfl).2
      (Or.inr ⟨60, rfl, by decide⟩)).1

/-! ## C10: no-op upsert of an existing roast -/

/-- C10: a creation request carrying a date whose identifier matches a roast
already stored for the same user, with a modified timestamp absent or not
older than the stored one, mutates no stored roast and no ingredient stock,
with or without an idempotency key; and unless a cached response replays, the
response reports the currently stored roast with status 200. -/
theorem c10_existing_upsert_frame (s : ServerState) (userId : UserId)
    (key : Option String) (rawBody : RoastBody) (now : Timestamp)
    (ncid : CoffeeId) (rid : RoastId) (ex : StoredRoast)
    (hrid : (rawBody.roastIdField <|> rawBody.idField) = some rid)
    (hdate : rawBody.date.isSome)
    (hex : findRoast s.roasts rid userId = some ex)
    (hnoconf : ∀ C sm, rawBody.modifiedAt = some C →
      (ex.modifiedAt <|> ex.updatedAt) = some sm → ¬ C < sm) :
    ((create_or_update_roast s userId key rawBody now ncid).state.roasts = s.roasts ∧
     (create_or_update_roast s userId key rawBody now ncid).state.coffees = s.coffees) ∧
    (key.bind (fun k => cacheLookup s.cache k aroastEndpoint) = none →
      (create_or_update_roast s userId key rawBody now ncid).status = 200 ∧
      (create_or_update_roast s userId key rawBody now ncid).body = .roastData ex) := by
  have hmod : (restore_suppressed_fields rawBody).modifiedAt = rawBody.modifiedAt := rfl
  have hdat : (restore_suppressed_fields rawBody).date = rawBody.date := rfl
  obtain ⟨d, hd⟩ := Option.isSome_iff_exists.mp hdate
  have hguard : ¬ ((restore_suppressed_fields rawBody).roastIdField.isSome ∧
      (restore_suppressed_fields rawBody).date = none) := by
    rw [hdat, hd]
    rintro ⟨-, h⟩
    exact Option.noConfusion h
  have hconf : (match findRoast s.roasts rid userId, (restore_suppressed_fields rawBody).modifiedAt with
       | some ex, some clientModified =>
         match ex.modifiedAt <|> ex.updatedAt with
         | some serverModified =>
           if clientModified < serverModified then some (serverModified, clientModified)
           else none
         | none => none
       | _, _ => (none : Option (Timestamp × Timestamp))) = none := by
    rw [hex, hmod]
    cases hC : rawBody.modifiedAt with
    | none => rfl
    | some C =>
      cases hsm : ex.modifiedAt <|> ex.updatedAt with
      | none => simp [hsm]
      | some sm => simp [hsm, hnoconf C sm hC hsm]
  cases hcache : key.bind (fun k => cacheLookup s.cache k aroastEndpoint) with
  | some resp =>
    constructor
    · simp [create_or_update_roast, hcache]
    · intro hmiss
      exact Option.noConfusion hmiss
  | none =>
    have heq : create_or_update_roast s userId key rawBody now ncid
        = { status := 200, body := .roastData ex,
            state := { s with
              cache := saveIdempotencyCache s.cache key aroastEndpoint (.roastData ex) },
            warnings := [] } := by
      rw [hex] at hconf
      simp only [create_or_update_roast, hcache, hrid, hex, hconf, hdat, hd]
      simp
    rw [heq]
    exact ⟨⟨rfl, rfl⟩, fun _ => ⟨rfl, rfl⟩⟩

/-- C10 witness: re-sending a creation payload for an already stored roast
with an equal modified timestamp changes neither roasts nor stocks and
returns the stored roast. -/
theorem c10_existing_upsert_frame_witness :
    ((create_or_update_roast
      { coffees := [{ id := 1, hrId := "C1001", label := "C1001", stockWeightKg := 10 }],
        blends := [],
        roasts := [{ id := 100, userId := 7, coffeeId := some 1, blendId := none,
                     roastedAt := 0, modifiedAt := some 50, updatedAt := none,
                     greenWeightKg := 2, roastedWeightKg := none, label := "",
                     notes := none, wholeColor := 0, groundColor := 0,
                     cuppingScore := 0, deductedComponents := [⟨1, 2⟩] }]
        cache := [] }
      7 (some "k1")
      { roastIdField := some 100, idField := none, date := some 60,
        roastedAtField := none, roastdateField := none, modifiedAt := some 50,
        coffee := some "C1001", blend := .absent, amountField := some 2,
        endWeight := none, labelField := none, notesField := none,
        wholeColorField := none, groundColorField := none,
        cuppingScoreField := none }
      61 2).state.roasts
      = [{ id := 100, userId := 7, coffeeId := some 1, blendId := none,
           roastedAt := 0, modifiedAt := some 50, updatedAt := none,
           greenWeightKg := 2, roastedWeightKg := none, label := "",
           notes := none, wholeColor := 0, groundColor := 0,
           cuppingScore := 0, deductedComponents := [⟨1, 2⟩] }] ∧
     (create_or_update_roast
      { coffees := [{ id := 1, hrId := "C1001", label := "C1001", stockWeightKg := 10 }],
        blends := [],
        roasts := [{ id := 100, userId := 7, coffeeId := some 1, blendId := none,
                     roastedAt := 0, modifiedAt := some 50, updatedAt := none,
                     greenWeightKg := 2, roastedWeightKg := none, label := "",
                     notes := none, wholeColor := 0, groundColor := 0,
                     cuppingScore := 0, deductedComponents := [⟨1, 2⟩] }]
        cache := [] }
      7 (some "k1")
      { roastIdField := some 100, idField := none, date := some 60,
        roastedAtField := none, roastdateField := none, modifiedAt := some 50,
        coffee := some "C1001", blend := .absent, amountField := some 2,
        endWeight := none, labelField := none, notesField := none,
        wholeColorField := none, groundColorField := none,
        cuppingScoreField := none }
      61 2).state.coffees
      = [{ id := 1, hrId := "C1001", label := "C1001", stockWeightKg := 10 }]) ∧
    (create_or_update_roast
      { coffees := [{ id := 1, hrId := "C1001", label := "C1001", stockWeightKg := 10 }],
        blends := [],
        roasts := [{ id := 100, userId := 7, coffeeId := some 1, blendId := none,
                     roastedAt := 0, modifiedAt := some 50, updatedAt := none,
                     greenWeightKg := 2, roastedWeightKg := none, label := "",
                     notes := none, wholeColor := 0, groundColor := 0,
                     cuppingScore := 0, deductedComponents := [⟨1, 2⟩] }]
        cache := [] }
      7 (some "k1")
      { roastIdField := some 100, idField := none, date := some 60,
        roastedAtField := none, roastdateField := none, modifiedAt := some 50,
        coffee := some "C1001", blend := .absent, amountField := some 2,
        endWeight := none, labelField := none, notesField := none,
        wholeColorField := none, groundColorField := none,
        cuppingScoreField := none }
      61 2).body
      = .roastData { id := 100, userId := 7, coffeeId := some 1, blendId := none,
                     roastedAt := 0, modifiedAt := some 50, updatedAt := none,
                     greenWeightKg := 2, roastedWeightKg := none, label := "",
                     notes := none, wholeColor := 0, groundColor := 0,
                     cuppingScore := 0, deductedComponents := [⟨1, 2⟩] } := by
  have h := c10_existing_upsert_frame
    { coffees := [{ id := 1, hrId := "C1001", label := "C1001", stockWeightKg := 10 }],
      blends := [],
      roasts := [{ id := 100, userId := 7, coffeeId := some 1, blendId := none,
                   roastedAt := 0, modifiedAt := some 50, updatedAt := none,
                   greenWeightKg := 2, roastedWeightKg := none, label := "",
                   notes := none, wholeColor := 0, groundColor := 0,
                   cuppingScore := 0, deductedComponents := [⟨1, 2⟩] }]
      cache := [] }
    7 (some "k1")
    { roastIdField := some 100, idField := none, date := some 60,
      roastedAtField := none, roastdateField := none, modifiedAt := some 50,
      coffee := some "C1001", blend := .absent, amountField := some 2,
      endWeight := none, labelField := none, notesField := none,
      wholeColorField := none, groundColorField := none,
      cuppingScoreField := none }
    61 2 100 _ rfl rfl rfl
    (by intro C sm hC hsm; simp at hC hsm; subst hC; subst hsm; decide)
  exact ⟨h.1, (h.2 rfl).2⟩

/-! ## Lookup and update interaction lemmas -/

theorem findCoffeeById_id {coffees : List Coffee} {cid : CoffeeId} {c : Coffee}
    (h : findCoffeeById coffees cid = some c) : c.id = cid := by
  have := List.find?_some h
  simpa using this

theorem findCoffeeByHr_hr {coffees : List Coffee} {hr : String} {c : Coffee}
    (h : findCoffeeByHr coffees hr = some c) : c.hrId = hr := by
  have := List.find?_some h
  simpa using this

theorem updateCoffee_fn_id (cid : CoffeeId) (q : ℚ) (a : Coffee) :
    ((if a.id == cid then { a with stockWeightKg := q } else a) : Coffee).id = a.id := by
  split <;> rfl

theorem updateCoffee_fn_hr (cid : CoffeeId) (q : ℚ) (a : Coffee) :
    ((if a.id == cid then { a with stockWeightKg := q } else a) : Coffee).hrId = a.hrId := by
  split <;> rfl

theorem findCoffeeById_updateCoffeeStock (coffees : List Coffee)
    (cid cid' : CoffeeId) (q : ℚ) :
    findCoffeeById (updateCoffeeStock coffees cid q) cid'
      = (findCoffeeById coffees cid').map
          (fun c => if c.id == cid then { c with stockWeightKg := round3 q } else c) := by
  induction coffees with
  | nil => rfl
  | cons a t ih =>
    unfold updateCoffeeStock at ih ⊢
    unfold findCoffeeById at ih ⊢
    simp only [List.map_cons]
    by_cases hpa : a.id = cid'
    · rw [List.find?_cons_of_pos, List.find?_cons_of_pos]
      · rfl
      · simpa using hpa
      · split <;> simp [hpa]
    · rw [List.find?_cons_of_neg, List.find?_cons_of_neg]
      · exact ih
      · simpa using hpa
      · split <;> simpa using hpa

theorem findCoffeeByHr_updateCoffeeStock (coffees : List Coffee)
    (cid : CoffeeId) (hr : String) (q : ℚ) :
    findCoffeeByHr (updateCoffeeStock coffees cid q) hr
      = (findCoffeeByHr coffees hr).map
          (fun c => if c.id == cid then { c with stockWeightKg := round3 q } else c) := by
  induction coffees with
  | nil => rfl
  | cons a t ih =>
    unfold updateCoffeeStock at ih ⊢
    unfold findCoffeeByHr at ih ⊢
    simp only [List.map_cons]
    by_cases hpa : a.hrId = hr
    · rw [List.find?_cons_of_pos, List.find?_cons_of_pos]
      · rfl
      · simpa using hpa
      · split <;> simp [hpa]
    · rw [List.find?_cons_of_neg, List.find?_cons_of_neg]
      · exact ih
      · simpa using hpa
      · split <;> simpa using hpa

theorem stockOf_updateCoffeeStock_self {coffees : List Coffee} {cid : CoffeeId}
    (q : ℚ) (h : (findCoffeeById coffees cid).isSome) :
    stockOf (updateCoffeeStock coffees cid q) cid = some (round3 q) := by
  unfold stockOf
  rw [findCoffeeById_updateCoffeeStock]
  obtain ⟨c, hc⟩ := Option.isSome_iff_exists.mp h
  rw [hc]
  simp [findCoffeeById_id hc]

theorem stockOf_updateCoffeeStock_ne {coffees : List Coffee} {cid cid' : CoffeeId}
    (q : ℚ) (hne : cid' ≠ cid) :
    stockOf (updateCoffeeStock coffees cid q) cid' = stockOf coffees cid' := by
  unfold stockOf
  rw [findCoffeeById_updateCoffeeStock]
  cases hf : findCoffeeById coffees cid' with
  | none => rfl
  | some c =>
    have hid := findCoffeeById_id hf
    simp [hid, hne]

theorem findCoffeeById_updateCoffeeStock_ne {coffees : List Coffee}
    {cid cid' : CoffeeId} (q : ℚ) (hne : cid' ≠ cid) :
    findCoffeeById (updateCoffeeStock coffees cid q) cid'
      = findCoffeeById coffees cid' := by
  rw [findCoffeeById_updateCoffeeStock]
  cases hf : findCoffeeById coffees cid' with
  | none => rfl
  | some c =>
    have hid := findCoffeeById_id hf
    simp [hid, hne]

theorem updateCoffeeStock_ids (coffees : List Coffee) (cid : CoffeeId) (q : ℚ) :
    (updateCoffeeStock coffees cid q).map (·.id) = coffees.map (·.id) := by
  induction coffees with
  | nil => rfl
  | cons a t ih =>
    simp only [updateCoffeeStock, List.map_cons] at *
    rw [ih]
    congr 1
    split <;> rfl

theorem findCoffeeById_eq_of_mem {coffees : List Coffee} {c : Coffee}
    (hmem : c ∈ coffees) (hnd : (coffees.map (·.id)).Nodup) :
    findCoffeeById coffees c.id = some c := by
  induction coffees with
  | nil => cases hmem
  | cons a t ih =>
    rw [List.map_cons] at hnd
    have hnd' := List.nodup_cons.mp hnd
    rcases List.mem_cons.mp hmem with rfl | hmem'
    · simp [findCoffeeById, List.find?]
    · by_cases hid : a.id = c.id
      · exfalso
        exact hnd'.1 (hid ▸ (List.mem_map.mpr ⟨c, hmem', rfl⟩))
      · have hfalse : (a.id == c.id) = false := by simpa using hid
        have ht : findCoffeeById t c.id = some c := ih hmem' hnd'.2
        simp only [findCoffeeById, List.find?, hfalse]
        exact ht

/-! ## Reduction of the handler to the full-create path -/

/-- When the idempotency cache misses, the payload carries a valid roast id
and a date, and no roast with that id exists for the caller, the handler
runs the full-create path on the restored body. -/
theorem create_reduces_to_fullCreate (s : ServerState) (userId : UserId)
    (key : Option String) (rawBody : RoastBody) (now : Timestamp)
    (ncid : CoffeeId) (rid : RoastId) (d : Timestamp)
    (hmiss : key.bind (fun k => cacheLookup s.cache k aroastEndpoint) = none)
    (hrid : (rawBody.roastIdField <|> rawBody.idField) = some rid)
    (hex : findRoast s.roasts rid userId = none)
    (hdate : rawBody.date = some d) :
    create_or_update_roast s userId key rawBody now ncid
      = fullCreate s userId key (restore_suppressed_fields rawBody) rid d now ncid := by
  have hdat : (restore_suppressed_fields rawBody).date = rawBody.date := rfl
  simp only [create_or_update_roast, hmiss, hrid, hex, hdat, hdate]
  simp

/-! ## C5: single-ingredient deduction -/

theorem resolveCoffee_found {s : ServerState} {hr : String} {c : Coffee}
    (ncid : CoffeeId) (hfound : findCoffeeByHr s.coffees hr = some c) :
    resolveCoffee s (some hr) ncid = (s, some c.id) := by
  simp [resolveCoffee, hfound]

theorem deductStep_single {coffees : List Coffee} {blends : List BlendEnt}
    {userId : UserId} {cid : CoffeeId} {q : ℚ} (hq : 0 < q)
    (X : Option (List BlendSpecIngredient)) (Y : Option BlendId) :
    deductStep coffees blends userId (some cid) X Y q
      = deductSingle coffees cid q := by
  unfold deductStep
  rw [if_pos ⟨rfl, hq⟩]
  rfl

/-- Full specification of the single-ingredient creation path; shared by the
C5 and C2 claims. -/
theorem single_create_spec (s : ServerState) (userId : UserId)
    (key : Option String) (rawBody : RoastBody) (now : Timestamp)
    (ncid : CoffeeId) (rid : RoastId) (d : Timestamp) (hr : String)
    (c : Coffee) (q : ℚ)
    (hmiss : key.bind (fun k => cacheLookup s.cache k aroastEndpoint) = none)
    (hrid : (rawBody.roastIdField <|> rawBody.idField) = some rid)
    (hex : findRoast s.roasts rid userId = none)
    (hdate : rawBody.date = some d)
    (hcof : rawBody.coffee = some hr)
    (hfound : findCoffeeByHr s.coffees hr = some c)
    (hamt : rawBody.amountField = some q)
    (hq : 0 < q)
    (hnodup : (s.coffees.map (·.id)).Nodup) :
    (q ≤ c.stockWeightKg →
      (create_or_update_roast s userId key rawBody now ncid).status = 201 ∧
      stockOf (create_or_update_roast s userId key rawBody now ncid).state.coffees c.id
        = some (round3 (c.stockWeightKg - q)) ∧
      (∀ cid, cid ≠ c.id →
        stockOf (create_or_update_roast s userId key rawBody now ncid).state.coffees cid
          = stockOf s.coffees cid) ∧
      (∃ nr : StoredRoast,
        (create_or_update_roast s userId key rawBody now ncid).body = .roastData nr ∧
        (create_or_update_roast s userId key rawBody now ncid).state.roasts
          = s.roasts ++ [nr] ∧
        nr.id = rid ∧
        nr.deductedComponents = [⟨c.id, q⟩] ∧ nr.greenWeightKg = q) ∧
      (create_or_update_roast s userId key rawBody now ncid).warnings = []) ∧
    (c.stockWeightKg < q →
      (create_or_update_roast s userId key rawBody now ncid).status = 201 ∧
      (create_or_update_roast s userId key rawBody now ncid).state.coffees = s.coffees ∧
      (∃ nr : StoredRoast,
        (create_or_update_roast s userId key rawBody now ncid).body = .roastData nr ∧
        (create_or_update_roast s userId key rawBody now ncid).state.roasts
          = s.roasts ++ [nr] ∧
        nr.deductedComponents = []) ∧
      (create_or_update_roast s userId key rawBody now ncid).warnings = [c.id]) := by
  rw [create_reduces_to_fullCreate s userId key rawBody now ncid rid d hmiss hrid hex hdate]
  have hbc : (restore_suppressed_fields rawBody).coffee = rawBody.coffee := rfl
  have hba : (restore_suppressed_fields rawBody).amountField = rawBody.amountField := rfl
  have hres : resolveCoffee s (restore_suppressed_fields rawBody).coffee ncid
      = (s, some c.id) := by
    rw [hbc, hcof]
    exact resolveCoffee_found ncid hfound
  have hfind : findCoffeeById s.coffees c.id = some c :=
    findCoffeeById_eq_of_mem (findCoffeeByHr_mem hfound) hnodup
  constructor
  · intro h1
    have hsingle : deductSingle s.coffees c.id q
        = (updateCoffeeStock s.coffees c.id (c.stockWeightKg - q), [⟨c.id, q⟩], []) := by
      unfold deductSingle
      rw [hfind]
      dsimp only
      rw [if_pos h1]
    refine ⟨?_, ?_, ?_, ?_, ?_⟩
    · simp only [fullCreate, hres, hba, hamt, Option.getD_some,
        deductStep_single hq, hsingle]
    · simp only [fullCreate, hres, hba, hamt, Option.getD_some,
        deductStep_single hq, hsingle]
      exact stockOf_updateCoffeeStock_self _ (by rw [hfind]; rfl)
    · intro cid hne
      simp only [fullCreate, hres, hba, hamt, Option.getD_some,
        deductStep_single hq, hsingle]
      exact stockOf_updateCoffeeStock_ne _ hne
    · simp only [fullCreate, hres, hba, hamt, Option.getD_some,
        deductStep_single hq, hsingle]
      exact ⟨_, rfl, rfl, rfl, rfl, rfl⟩
    · simp only [fullCreate, hres, hba, hamt, Option.getD_some,
        deductStep_single hq, hsingle]
  · intro h2
    have hsingle : deductSingle s.coffees c.id q = (s.coffees, [], [c.id]) := by
      unfold deductSingle
      rw [hfind]
      dsimp only
      rw [if_neg (not_le_of_lt h2)]
    refine ⟨?_, ?_, ?_, ?_⟩
    · simp only [fullCreate, hres, hba, hamt, Option.getD_some,
        deductStep_single hq, hsingle]
    · simp only [fullCreate, hres, hba, hamt, Option.getD_some,
        deductStep_single hq, hsingle]
    · simp only [fullCreate, hres, hba, hamt, Option.getD_some,
        deductStep_single hq, hsingle]
      exact ⟨_, rfl, rfl, rfl⟩
    · simp only [fullCreate, hres, hba, hamt, Option.getD_some,
        deductStep_single hq, hsingle]

/-! ## C6: per-component blend deduction -/

/-- Whether a recipe component passes its own stock check against `cs`. -/
def recipePass (cs : List Coffee) (amount : ℚ) (comp : RecipeComponent) : Bool :=
  match findCoffeeById cs comp.coffeeId with
  | none => false
  | some c => decide (amount * comp.percentage / 100 ≤ c.stockWeightKg)

/-- The stock a recipe component's ingredient ends with: deducted when the
check passes, untouched otherwise. -/
def recipeOutcome (cs : List Coffee) (amount : ℚ) (comp : RecipeComponent) :
    Option ℚ :=
  (findCoffeeById cs comp.coffeeId).map (fun c =>
    if amount * comp.percentage / 100 ≤ c.stockWeightKg
    then round3 (c.stockWeightKg - amount * comp.percentage / 100)
    else c.stockWeightKg)

theorem deductBlendRecipeStep_acc (amount : ℚ) (cs : List Coffee)
    (l : List DeductedComponent) (comp : RecipeComponent) :
    deductBlendRecipeStep amount (cs, l) comp
      = ((deductBlendRecipeStep amount (cs, []) comp).1,
         l ++ (deductBlendRecipeStep amount (cs, []) comp).2) := by
  simp only [deductBlendRecipeStep]
  cases findCoffeeById cs comp.coffeeId with
  | none => simp
  | some c =>
    dsimp only
    split <;> simp

theorem deductBlendRecipe_acc (amount : ℚ) (recipe : List RecipeComponent)
    (cs : List Coffee) (l : List DeductedComponent) :
    recipe.foldl (deductBlendRecipeStep amount) (cs, l)
      = ((recipe.foldl (deductBlendRecipeStep amount) (cs, [])).1,
         l ++ (recipe.foldl (deductBlendRecipeStep amount) (cs, [])).2) := by
  induction recipe generalizing cs l with
  | nil => simp
  | cons comp rest ih =>
    rw [List.foldl_cons, List.foldl_cons, deductBlendRecipeStep_acc amount cs l comp]
    cases hstep : deductBlendRecipeStep amount (cs, []) comp with
    | mk X L =>
      rw [ih X (l ++ L), ih X L]
      simp [List.append_assoc]

theorem recipePass_update_ne (cs : List Coffee) (amount : ℚ) (cid : CoffeeId)
    (q : ℚ) (comp : RecipeComponent) (hne : comp.coffeeId ≠ cid) :
    recipePass (updateCoffeeStock cs cid q) amount comp
      = recipePass cs amount comp := by
  unfold recipePass
  rw [findCoffeeById_updateCoffeeStock_ne q hne]

theorem recipeOutcome_update_ne (cs : List Coffee) (amount : ℚ) (cid : CoffeeId)
    (q : ℚ) (comp : RecipeComponent) (hne : comp.coffeeId ≠ cid) :
    recipeOutcome (updateCoffeeStock cs cid q) amount comp
      = recipeOutcome cs amount comp := by
  unfold recipeOutcome
  rw [findCoffeeById_updateCoffeeStock_ne q hne]

theorem deductBlendRecipe_spec (cs : List Coffee) (recipe : List RecipeComponent)
    (amount : ℚ) (hndC : (cs.map (·.id)).Nodup)
    (hndR : (recipe.map (·.coffeeId)).Nodup) :
    (deductBlendRecipe cs recipe amount).2
      = (recipe.filter (recipePass cs amount)).map
          (fun comp => ⟨comp.coffeeId, round3 (amount * comp.percentage / 100)⟩) ∧
    (∀ comp ∈ recipe,
      stockOf (deductBlendRecipe cs recipe amount).1 comp.coffeeId
        = recipeOutcome cs amount comp) ∧
    (∀ cid, cid ∉ recipe.map (·.coffeeId) →
      stockOf (deductBlendRecipe cs recipe amount).1 cid = stockOf cs cid) := by
  induction recipe generalizing cs with
  | nil => simp [deductBlendRecipe]
  | cons comp rest ih =>
    rw [List.map_cons, List.nodup_cons] at hndR
    obtain ⟨hhead, htail⟩ := hndR
    have hnotin : comp.coffeeId ∉ rest.map (·.coffeeId) := hhead
    have hstep_ne : ∀ comp' ∈ rest, comp'.coffeeId ≠ comp.coffeeId := by
      intro comp' hmem heq
      exact hnotin (heq ▸ List.mem_map.mpr ⟨comp', hmem, rfl⟩)
    unfold deductBlendRecipe at ih ⊢
    rw [List.foldl_cons]
    cases hf : findCoffeeById cs comp.coffeeId with
    | none =>
      have hstep : deductBlendRecipeStep amount (cs, []) comp = (cs, []) := by
        unfold deductBlendRecipeStep
        rw [hf]
      rw [hstep]
      obtain ⟨ihl, ihs, ihf⟩ := ih cs hndC htail
      have hpassc : recipePass cs amount comp = false := by
        unfold recipePass
        rw [hf]
      refine ⟨?_, ?_, ?_⟩
      · rw [List.filter_cons_of_neg (by simp [hpassc]), ihl]
      · intro comp' hmem
        rcases List.mem_cons.mp hmem with rfl | hmem'
        · rw [ihf comp'.coffeeId hnotin]
          unfold recipeOutcome stockOf
          rw [hf]
          rfl
        · exact ihs comp' hmem'
      · intro cid hcid
        rw [List.map_cons, List.mem_cons] at hcid
        push_neg at hcid
        exact ihf cid hcid.2
    | some c =>
      by_cases hle : amount * comp.percentage / 100 ≤ c.stockWeightKg
      · -- sufficient: the component is deducted
        have hstep : deductBlendRecipeStep amount (cs, []) comp
            = (updateCoffeeStock cs comp.coffeeId
                 (c.stockWeightKg - amount * comp.percentage / 100),
               [⟨comp.coffeeId, round3 (amount * comp.percentage / 100)⟩]) := by
          unfold deductBlendRecipeStep
          rw [hf]
          dsimp only
          rw [if_pos hle]
          simp
        rw [hstep, deductBlendRecipe_acc]
        have hndC' : ((updateCoffeeStock cs comp.coffeeId
            (c.stockWeightKg - amount * comp.percentage / 100)).map (·.id)).Nodup := by
          rw [updateCoffeeStock_ids]
          exact hndC
        obtain ⟨ihl, ihs, ihf⟩ := ih _ hndC' htail
        have hpassc : recipePass cs amount comp = true := by
          unfold recipePass
          rw [hf]
          simpa using hle
        have hpcongr : ∀ comp' ∈ rest,
            recipePass (updateCoffeeStock cs comp.coffeeId
              (c.stockWeightKg - amount * comp.percentage / 100)) amount comp'
              = recipePass cs amount comp' := by
          intro comp' hmem
          exact recipePass_update_ne cs amount _ _ comp' (hstep_ne comp' hmem)
        refine ⟨?_, ?_, ?_⟩
        · rw [List.filter_cons_of_pos (by simp [hpassc]), List.map_cons]
          dsimp only
          rw [ihl, List.filter_congr hpcongr]
          simp
        · intro comp' hmem
          rcases List.mem_cons.mp hmem with rfl | hmem'
          · rw [ihf comp'.coffeeId hnotin,
              stockOf_updateCoffeeStock_self _ (by rw [hf]; rfl)]
            unfold recipeOutcome
            rw [hf]
            simp [hle]
          · rw [ihs comp' hmem',
              recipeOutcome_update_ne cs amount _ _ comp' (hstep_ne comp' hmem')]
        · intro cid hcid
          rw [List.map_cons, List.mem_cons] at hcid
          push_neg at hcid
          rw [ihf cid hcid.2, stockOf_updateCoffeeStock_ne _ hcid.1]
      · -- insufficient: the component is skipped individually
        have hstep : deductBlendRecipeStep amount (cs, []) comp = (cs, []) := by
          unfold deductBlendRecipeStep
          rw [hf]
          dsimp only
          rw [if_neg hle]
        rw [hstep]
        obtain ⟨ihl, ihs, ihf⟩ := ih cs hndC htail
        have hpassc : recipePass cs amount comp = false := by
          unfold recipePass
          rw [hf]
          simpa using hle
        refine ⟨?_, ?_, ?_⟩
        · rw [List.filter_cons_of_neg (by simp [hpassc]), ihl]
        · intro comp' hmem
          rcases List.mem_cons.mp hmem with rfl | hmem'
          · rw [ihf comp'.coffeeId hnotin]
            unfold recipeOutcome stockOf
            rw [hf]
            simp [hle]
          · exact ihs comp' hmem'
        · intro cid hcid
          rw [List.map_cons, List.mem_cons] at hcid
          push_neg at hcid
          exact ihf cid hcid.2

/-- The ingredient an ad-hoc blend-spec entry resolves to (resolvable hr id
with a positive ratio), if any. -/
def specResolve (cs : List Coffee) (ing : BlendSpecIngredient) : Option Coffee :=
  match ing.coffee with
  | none => none
  | some hr => if ing.ratio ≤ 0 then none else findCoffeeByHr cs hr

/-- The ledger entry an ad-hoc blend-spec entry contributes, if any. -/
def specLedgerEntry (cs : List Coffee) (amount : ℚ) (ing : BlendSpecIngredient) :
    Option DeductedComponent :=
  match specResolve cs ing with
  | none => none
  | some c =>
    if amount * ing.ratio ≤ c.stockWeightKg
    then some ⟨c.id, round3 (amount * ing.ratio)⟩ else none

/-- The insufficient-stock warning an ad-hoc blend-spec entry contributes,
if any. -/
def specWarnEntry (cs : List Coffee) (amount : ℚ) (ing : BlendSpecIngredient) :
    Option CoffeeId :=
  match specResolve cs ing with
  | none => none
  | some c =>
    if amount * ing.ratio ≤ c.stockWeightKg then none else some c.id

theorem coffee_id_inj {cs : List Coffee} (hndC : (cs.map (·.id)).Nodup)
    {c c' : Coffee} (hc : c ∈ cs) (hc' : c' ∈ cs) (h : c.id = c'.id) : c = c' :=
  List.inj_on_of_nodup_map hndC hc hc' h

theorem findCoffeeByHr_update_ne_hr {cs : List Coffee}
    (hndC : (cs.map (·.id)).Nodup) {hr hr' : String} {c : Coffee}
    (hc : findCoffeeByHr cs hr = some c) (hne : hr' ≠ hr) (q : ℚ) :
    findCoffeeByHr (updateCoffeeStock cs c.id q) hr' = findCoffeeByHr cs hr' := by
  rw [findCoffeeByHr_updateCoffeeStock]
  cases hf : findCoffeeByHr cs hr' with
  | none => rfl
  | some c' =>
    have hne' : c'.id ≠ c.id := by
      intro heq
      have hcc : c' = c :=
        coffee_id_inj hndC (findCoffeeByHr_mem hf) (findCoffeeByHr_mem hc) heq
      apply hne
      rw [← findCoffeeByHr_hr hf, hcc, findCoffeeByHr_hr hc]
    simp [hne']

theorem specResolve_eq_some {cs : List Coffee} {ing : BlendSpecIngredient}
    {c : Coffee} (h : specResolve cs ing = some c) :
    ∃ hr, ing.coffee = some hr ∧ ¬ ing.ratio ≤ 0 ∧ findCoffeeByHr cs hr = some c := by
  unfold specResolve at h
  cases hco : ing.coffee with
  | none => rw [hco] at h; cases h
  | some hr =>
    rw [hco] at h
    dsimp only at h
    by_cases hr0 : ing.ratio ≤ 0
    · rw [if_pos hr0] at h; cases h
    · rw [if_neg hr0] at h
      exact ⟨hr, rfl, hr0, h⟩

theorem specResolve_update_ne {cs : List Coffee} (hndC : (cs.map (·.id)).Nodup)
    {hr : String} {c : Coffee} (hc : findCoffeeByHr cs hr = some c) (q : ℚ)
    (ing : BlendSpecIngredient)
    (hne : ∀ hr', ing.coffee = some hr' → hr' ≠ hr) :
    specResolve (updateCoffeeStock cs c.id q) ing = specResolve cs ing := by
  unfold specResolve
  cases hco : ing.coffee with
  | none => rfl
  | some hr' =>
    dsimp only
    split
    · rfl
    · exact findCoffeeByHr_update_ne_hr hndC hc (hne hr' hco) q

theorem specLedgerEntry_update_ne {cs : List Coffee}
    (hndC : (cs.map (·.id)).Nodup) {hr : String} {c : Coffee}
    (hc : findCoffeeByHr cs hr = some c) (amount q : ℚ)
    (ing : BlendSpecIngredient)
    (hne : ∀ hr', ing.coffee = some hr' → hr' ≠ hr) :
    specLedgerEntry (updateCoffeeStock cs c.id q) amount ing
      = specLedgerEntry cs amount ing := by
  unfold specLedgerEntry
  rw [specResolve_update_ne hndC hc q ing hne]

theorem specWarnEntry_update_ne {cs : List Coffee}
    (hndC : (cs.map (·.id)).Nodup) {hr : String} {c : Coffee}
    (hc : findCoffeeByHr cs hr = some c) (amount q : ℚ)
    (ing : BlendSpecIngredient)
    (hne : ∀ hr', ing.coffee = some hr' → hr' ≠ hr) :
    specWarnEntry (updateCoffeeStock cs c.id q) amount ing
      = specWarnEntry cs amount ing := by
  unfold specWarnEntry
  rw [specResolve_update_ne hndC hc q ing hne]

theorem specResolve_id_ne {cs : List Coffee} (hndC : (cs.map (·.id)).Nodup)
    {hr : String} {c : Coffee} (hc : findCoffeeByHr cs hr = some c)
    {ing' : BlendSpecIngredient} {c' : Coffee}
    (h : specResolve cs ing' = some c')
    (hne : ∀ hr', ing'.coffee = some hr' → hr' ≠ hr) : c'.id ≠ c.id := by
  obtain ⟨hr', hco', _, hf'⟩ := specResolve_eq_some h
  intro heq
  have hcc : c' = c :=
    coffee_id_inj hndC (findCoffeeByHr_mem hf') (findCoffeeByHr_mem hc) heq
  exact hne hr' hco' (by rw [← findCoffeeByHr_hr hf', hcc, findCoffeeByHr_hr hc])

theorem deductBlendSpecStep_acc (amount : ℚ) (cs : List Coffee)
    (l : List DeductedComponent) (w : List CoffeeId) (ing : BlendSpecIngredient) :
    deductBlendSpecStep amount (cs, l, w) ing
      = ((deductBlendSpecStep amount (cs, [], []) ing).1,
         l ++ (deductBlendSpecStep amount (cs, [], []) ing).2.1,
         w ++ (deductBlendSpecStep amount (cs, [], []) ing).2.2) := by
  simp only [deductBlendSpecStep]
  cases ing.coffee with
  | none => simp
  | some hr =>
    dsimp only
    split
    · simp
    · cases findCoffeeByHr cs hr with
      | none => simp
      | some c =>
        dsimp only
        split <;> simp

theorem deductBlendSpec_acc (amount : ℚ) (ings : List BlendSpecIngredient)
    (cs : List Coffee) (l : List DeductedComponent) (w : List CoffeeId) :
    ings.foldl (deductBlendSpecStep amount) (cs, l, w)
      = ((ings.foldl (deductBlendSpecStep amount) (cs, [], [])).1,
         l ++ (ings.foldl (deductBlendSpecStep amount) (cs, [], [])).2.1,
         w ++ (ings.foldl (deductBlendSpecStep amount) (cs, [], [])).2.2) := by
  induction ings generalizing cs l w with
  | nil => simp
  | cons ing rest ih =>
    rw [List.foldl_cons, List.foldl_cons, deductBlendSpecStep_acc amount cs l w ing]
    cases hstep : deductBlendSpecStep amount (cs, [], []) ing with
    | mk X P =>
      cases P with
      | mk L W =>
        rw [ih X (l ++ L) (w ++ W), ih X L W]
        simp [List.append_assoc]

theorem deductBlendSpec_spec (cs : List Coffee) (ings : List BlendSpecIngredient)
    (amount : ℚ) (hndC : (cs.map (·.id)).Nodup)
    (hndH : (ings.filterMap (·.coffee)).Nodup) :
    (deductBlendSpec cs ings amount).2.1
      = ings.filterMap (specLedgerEntry cs amount) ∧
    (deductBlendSpec cs ings amount).2.2
      = ings.filterMap (specWarnEntry cs amount) ∧
    (∀ ing ∈ ings, ∀ c : Coffee, specResolve cs ing = some c →
      stockOf (deductBlendSpec cs ings amount).1 c.id
        = some (if amount * ing.ratio ≤ c.stockWeightKg
                then round3 (c.stockWeightKg - amount * ing.ratio)
                else c.stockWeightKg)) ∧
    (∀ cid, (∀ ing ∈ ings, ∀ c : Coffee, specResolve cs ing = some c → c.id ≠ cid) →
      stockOf (deductBlendSpec cs ings amount).1 cid = stockOf cs cid) := by
  induction ings generalizing cs with
  | nil => simp [deductBlendSpec]
  | cons ing rest ih =>
    unfold deductBlendSpec at ih ⊢
    rw [List.foldl_cons]
    cases hco : ing.coffee with
    | none =>
      have hstep : deductBlendSpecStep amount (cs, [], []) ing = (cs, [], []) := by
        unfold deductBlendSpecStep
        rw [hco]
      have hresNone : specResolve cs ing = none := by
        unfold specResolve
        rw [hco]
      have hndH' : (rest.filterMap (·.coffee)).Nodup := by
        rw [List.filterMap_cons, hco] at hndH
        exact hndH
      rw [hstep]
      obtain ⟨ihl, ihw, ihs, ihf⟩ := ih cs hndC hndH'
      refine ⟨?_, ?_, ?_, ?_⟩
      · rw [ihl, List.filterMap_cons]
        simp [specLedgerEntry, hresNone]
      · rw [ihw, List.filterMap_cons]
        simp [specWarnEntry, hresNone]
      · intro ing' hmem c' hres
        rcases List.mem_cons.mp hmem with rfl | hmem'
        · rw [hresNone] at hres; cases hres
        · exact ihs ing' hmem' c' hres
      · intro cid hcid
        exact ihf cid (fun ing' hmem' => hcid ing' (List.mem_cons_of_mem ing hmem'))
    | some hr =>
      have hnehr : ∀ ing' ∈ rest, ∀ hr', ing'.coffee = some hr' → hr' ≠ hr := by
        rw [List.filterMap_cons, hco, List.nodup_cons] at hndH
        intro ing' hmem' hr' hco' heq
        exact hndH.1 (heq ▸ List.mem_filterMap.mpr ⟨ing', hmem', hco'⟩)
      have hndH' : (rest.filterMap (·.coffee)).Nodup := by
        rw [List.filterMap_cons, hco, List.nodup_cons] at hndH
        exact hndH.2
      by_cases hr0 : ing.ratio ≤ 0
      · have hstep : deductBlendSpecStep amount (cs, [], []) ing = (cs, [], []) := by
          unfold deductBlendSpecStep
          rw [hco]
          dsimp only
          rw [if_pos hr0]
        have hresNone : specResolve cs ing = none := by
          unfold specResolve
          rw [hco]
          dsimp only
          rw [if_pos hr0]
        rw [hstep]
        obtain ⟨ihl, ihw, ihs, ihf⟩ := ih cs hndC hndH'
        refine ⟨?_, ?_, ?_, ?_⟩
        · rw [ihl, List.filterMap_cons]
          simp [specLedgerEntry, hresNone]
        · rw [ihw, List.filterMap_cons]
          simp [specWarnEntry, hresNone]
        · intro ing' hmem c' hres
          rcases List.mem_cons.mp hmem with rfl | hmem'
          · rw [hresNone] at hres; cases hres
          · exact ihs ing' hmem' c' hres
        · intro cid hcid
          exact ihf cid (fun ing' hmem' => hcid ing' (List.mem_cons_of_mem ing hmem'))
      · cases hfhr : findCoffeeByHr cs hr with
        | none =>
          have hstep : deductBlendSpecStep amount (cs, [], []) ing = (cs, [], []) := by
            unfold deductBlendSpecStep
            rw [hco]
            dsimp only
            rw [if_neg hr0, hfhr]
          have hresNone : specResolve cs ing = none := by
            unfold specResolve
            rw [hco]
            dsimp only
            rw [if_neg hr0, hfhr]
          rw [hstep]
          obtain ⟨ihl, ihw, ihs, ihf⟩ := ih cs hndC hndH'
          refine ⟨?_, ?_, ?_, ?_⟩
          · rw [ihl, List.filterMap_cons]
            simp [specLedgerEntry, hresNone]
          · rw [ihw, List.filterMap_cons]
            simp [specWarnEntry, hresNone]
          · intro ing' hmem c' hres
            rcases List.mem_cons.mp hmem with rfl | hmem'
            · rw [hresNone] at hres; cases hres
            · exact ihs ing' hmem' c' hres
          · intro cid hcid
            exact ihf cid (fun ing' hmem' => hcid ing' (List.mem_cons_of_mem ing hmem'))
        | some c =>
          have hresSome : specResolve cs ing = some c := by
            unfold specResolve
            rw [hco]
            dsimp only
            rw [if_neg hr0, hfhr]
          have hfid : findCoffeeById cs c.id = some c :=
            findCoffeeById_eq_of_mem (findCoffeeByHr_mem hfhr) hndC
          by_cases hle : amount * ing.ratio ≤ c.stockWeightKg
          · -- sufficient: this entry is deducted
            have hstep : deductBlendSpecStep amount (cs, [], []) ing
                = (updateCoffeeStock cs c.id (c.stockWeightKg - amount * ing.ratio),
                   [⟨c.id, round3 (amount * ing.ratio)⟩], []) := by
              unfold deductBlendSpecStep
              rw [hco]
              dsimp only
              rw [if_neg hr0, hfhr]
              dsimp only
              rw [if_pos hle]
              simp
            rw [hstep, deductBlendSpec_acc]
            have hndC' : ((updateCoffeeStock cs c.id
                (c.stockWeightKg - amount * ing.ratio)).map (·.id)).Nodup := by
              rw [updateCoffeeStock_ids]
              exact hndC
            obtain ⟨ihl, ihw, ihs, ihf⟩ := ih _ hndC' hndH'
            have hLcongr : ∀ ing' ∈ rest,
                specLedgerEntry (updateCoffeeStock cs c.id
                  (c.stockWeightKg - amount * ing.ratio)) amount ing'
                  = specLedgerEntry cs amount ing' := by
              intro ing' hmem'
              exact specLedgerEntry_update_ne hndC hfhr amount _ ing' (hnehr ing' hmem')
            have hWcongr : ∀ ing' ∈ rest,
                specWarnEntry (updateCoffeeStock cs c.id
                  (c.stockWeightKg - amount * ing.ratio)) amount ing'
                  = specWarnEntry cs amount ing' := by
              intro ing' hmem'
              exact specWarnEntry_update_ne hndC hfhr amount _ ing' (hnehr ing' hmem')
            have hRcongr : ∀ ing' ∈ rest,
                specResolve (updateCoffeeStock cs c.id
                  (c.stockWeightKg - amount * ing.ratio)) ing'
                  = specResolve cs ing' := by
              intro ing' hmem'
              exact specResolve_update_ne hndC hfhr _ ing' (hnehr ing' hmem')
            refine ⟨?_, ?_, ?_, ?_⟩
            · rw [ihl, List.filterMap_congr hLcongr, List.filterMap_cons]
              simp [specLedgerEntry, hresSome, hle]
            · rw [ihw, List.filterMap_congr hWcongr, List.filterMap_cons]
              simp [specWarnEntry, hresSome, hle]
            · intro ing' hmem c' hres
              rcases List.mem_cons.mp hmem with rfl | hmem'
              · have hcc : c' = c := by
                  rw [hresSome] at hres
                  exact (Option.some.inj hres).symm
                subst hcc
                rw [ihf c'.id (fun ing'' hmem'' c'' hres'' =>
                    specResolve_id_ne hndC hfhr
                      ((hRcongr ing'' hmem'') ▸ hres'') (hnehr ing'' hmem'')),
                  stockOf_updateCoffeeStock_self _ (by rw [hfid]; rfl), if_pos hle]
              · rw [ihs ing' hmem' c' ((hRcongr ing' hmem').symm ▸ hres)]
            · intro cid hcid
              have hne : c.id ≠ cid := hcid ing (List.mem_cons_self ing rest) c hresSome
              rw [ihf cid (fun ing'' hmem'' c'' hres'' =>
                  hcid ing'' (List.mem_cons_of_mem ing hmem'') c''
                    ((hRcongr ing'' hmem'').symm ▸ hres'')),
                stockOf_updateCoffeeStock_ne _ (Ne.symm hne)]
          · -- insufficient: this entry is skipped with a warning
            have hstep : deductBlendSpecStep amount (cs, [], []) ing
                = (cs, [], [c.id]) := by
              unfold deductBlendSpecStep
              rw [hco]
              dsimp only
              rw [if_neg hr0, hfhr]
              dsimp only
              rw [if_neg hle]
              simp
            rw [hstep, deductBlendSpec_acc]
            obtain ⟨ihl, ihw, ihs, ihf⟩ := ih cs hndC hndH'
            refine ⟨?_, ?_, ?_, ?_⟩
            · rw [ihl, List.filterMap_cons]
              simp [specLedgerEntry, hresSome, hle]
            · rw [ihw, List.filterMap_cons]
              simp [specWarnEntry, hresSome, hle]
            · intro ing' hmem c' hres
              rcases List.mem_cons.mp hmem with rfl | hmem'
              · have hcc : c' = c := by
                  rw [hresSome] at hres
                  exact (Option.some.inj hres).symm
                subst hcc
                rw [ihf c'.id (fun ing'' hmem'' c'' hres'' =>
                    specResolve_id_ne hndC hfhr hres'' (hnehr ing'' hmem'')),
                  if_neg hle]
                unfold stockOf
                rw [hfid]
                rfl
              · exact ihs ing' hmem' c' hres
            · intro cid hcid
              exact ihf cid (fun ing' hmem' =>
                hcid ing' (List.mem_cons_of_mem ing hmem'))

theorem deductBlendRecipeStep_ids (amount : ℚ)
    (acc : List Coffee × List DeductedComponent) (comp : RecipeComponent) :
    ((deductBlendRecipeStep amount acc comp).1).map (·.id) = acc.1.map (·.id) := by
  unfold deductBlendRecipeStep
  cases findCoffeeById acc.1 comp.coffeeId with
  | none => rfl
  | some c =>
    dsimp only
    split
    · exact updateCoffeeStock_ids _ _ _
    · rfl

theorem deductBlendRecipe_foldl_ids (amount : ℚ) (recipe : List RecipeComponent) :
    ∀ acc : List Coffee × List DeductedComponent,
      ((recipe.foldl (deductBlendRecipeStep amount) acc).1).map (·.id)
        = acc.1.map (·.id) := by
  induction recipe with
  | nil => intro acc; rfl
  | cons comp rest ih =>
    intro acc
    rw [List.foldl_cons, ih, deductBlendRecipeStep_ids]

theorem deductBlendRecipe_ids (cs : List Coffee) (recipe : List RecipeComponent)
    (amount : ℚ) :
    ((deductBlendRecipe cs recipe amount).1).map (·.id) = cs.map (·.id) :=
  deductBlendRecipe_foldl_ids amount recipe (cs, [])

theorem deductBlendSpecStep_ids (amount : ℚ)
    (acc : List Coffee × List DeductedComponent × List CoffeeId)
    (ing : BlendSpecIngredient) :
    ((deductBlendSpecStep amount acc ing).1).map (·.id) = acc.1.map (·.id) := by
  unfold deductBlendSpecStep
  cases ing.coffee with
  | none => rfl
  | some hr =>
    dsimp only
    split
    · rfl
    · cases findCoffeeByHr acc.1 hr with
      | none => rfl
      | some c =>
        dsimp only
        split
        · exact updateCoffeeStock_ids _ _ _
        · rfl

theorem deductBlendSpec_foldl_ids (amount : ℚ) (ings : List BlendSpecIngredient) :
    ∀ acc : List Coffee × List DeductedComponent × List CoffeeId,
      ((ings.foldl (deductBlendSpecStep amount) acc).1).map (·.id)
        = acc.1.map (·.id) := by
  induction ings with
  | nil => intro acc; rfl
  | cons ing rest ih =>
    intro acc
    rw [List.foldl_cons, ih, deductBlendSpecStep_ids]

theorem deductBlendSpec_ids (cs : List Coffee) (ings : List BlendSpecIngredient)
    (amount : ℚ) :
    ((deductBlendSpec cs ings amount).1).map (·.id) = cs.map (·.id) :=
  deductBlendSpec_foldl_ids amount ings (cs, [], [])

theorem findBlend_id {blends : List BlendEnt} {bid : BlendId} {uid : UserId}
    {b : BlendEnt} (h : findBlend blends bid uid = some b) : b.id = bid := by
  have hp := List.find?_some h
  simp only [Bool.and_eq_true, beq_iff_eq] at hp
  exact hp.1

/-- Full specification of the blend creation paths (percentage Blend entity
and inline ad-hoc spec); shared by the C6 and C2 claims. -/
theorem blend_create_spec (s : ServerState) (userId : UserId)
    (key : Option String) (rawBody : RoastBody) (now : Timestamp)
    (ncid : CoffeeId) (rid : RoastId) (d : Timestamp) (q : ℚ)
    (hmiss : key.bind (fun k => cacheLookup s.cache k aroastEndpoint) = none)
    (hrid : (rawBody.roastIdField <|> rawBody.idField) = some rid)
    (hex : findRoast s.roasts rid userId = none)
    (hdate : rawBody.date = some d)
    (hcoffee : rawBody.coffee = none)
    (hamt : rawBody.amountField = some q)
    (hq : 0 < q)
    (hndC : (s.coffees.map (·.id)).Nodup) :
    (∀ bu blend, rawBody.blend = .uuidStr (some bu) →
      findBlend s.blends bu userId = some blend →
      (blend.recipe.map (·.coffeeId)).Nodup →
      ((create_or_update_roast s userId key rawBody now ncid).status = 201 ∧
       (∃ nr : StoredRoast,
         (create_or_update_roast s userId key rawBody now ncid).body = .roastData nr ∧
         (create_or_update_roast s userId key rawBody now ncid).state.roasts
           = s.roasts ++ [nr] ∧
         nr.id = rid ∧
         nr.deductedComponents
           = (blend.recipe.filter (recipePass s.coffees q)).map
               (fun comp => ⟨comp.coffeeId, round3 (q * comp.percentage / 100)⟩)) ∧
       (∀ comp ∈ blend.recipe,
         stockOf (create_or_update_roast s userId key rawBody now ncid).state.coffees
             comp.coffeeId
           = recipeOutcome s.coffees q comp) ∧
       (∀ cid, cid ∉ blend.recipe.map (·.coffeeId) →
         stockOf (create_or_update_roast s userId key rawBody now ncid).state.coffees cid
           = stockOf s.coffees cid) ∧
       ((create_or_update_roast s userId key rawBody now ncid).state.coffees.map (·.id)
         = s.coffees.map (·.id)))) ∧
    (∀ ings, rawBody.blend = .spec ings →
      (ings.filterMap (·.coffee)).Nodup →
      ((create_or_update_roast s userId key rawBody now ncid).status = 201 ∧
       (∃ nr : StoredRoast,
         (create_or_update_roast s userId key rawBody now ncid).body = .roastData nr ∧
         (create_or_update_roast s userId key rawBody now ncid).state.roasts
           = s.roasts ++ [nr] ∧
         nr.id = rid ∧
         nr.deductedComponents = ings.filterMap (specLedgerEntry s.coffees q)) ∧
       (create_or_update_roast s userId key rawBody now ncid).warnings
         = ings.filterMap (specWarnEntry s.coffees q) ∧
       (∀ ing ∈ ings, ∀ c : Coffee, specResolve s.coffees ing = some c →
         stockOf (create_or_update_roast s userId key rawBody now ncid).state.coffees c.id
           = some (if q * ing.ratio ≤ c.stockWeightKg
                   then round3 (c.stockWeightKg - q * ing.ratio)
                   else c.stockWeightKg)) ∧
       (∀ cid,
         (∀ ing ∈ ings, ∀ c : Coffee, specResolve s.coffees ing = some c → c.id ≠ cid) →
         stockOf (create_or_update_roast s userId key rawBody now ncid).state.coffees cid
           = stockOf s.coffees cid) ∧
       ((create_or_update_roast s userId key rawBody now ncid).state.coffees.map (·.id)
         = s.coffees.map (·.id)))) := by
  rw [create_reduces_to_fullCreate s userId key rawBody now ncid rid d hmiss hrid hex hdate]
  have hbc : (restore_suppressed_fields rawBody).coffee = rawBody.coffee := rfl
  have hbb : (restore_suppressed_fields rawBody).blend = rawBody.blend := rfl
  have hba : (restore_suppressed_fields rawBody).amountField = rawBody.amountField := rfl
  have hres : resolveCoffee s (restore_suppressed_fields rawBody).coffee ncid
      = (s, none) := by
    rw [hbc, hcoffee]
    rfl
  constructor
  · intro bu blend hblend hfb hndR
    have hbid : blend.id = bu := findBlend_id hfb
    have hfb' : findBlend s.blends blend.id userId = some blend := by
      rw [hbid]; exact hfb
    have hded : deductStep s.coffees s.blends userId none none (some blend.id) q
        = ((deductBlendRecipe s.coffees blend.recipe q).1,
           (deductBlendRecipe s.coffees blend.recipe q).2, []) := by
      unfold deductStep
      rw [if_neg (by simp), if_neg (by simp), if_pos ⟨rfl, hq⟩]
      dsimp only [Option.getD]
      unfold deductBlendEntity
      rw [hfb']
    obtain ⟨ihl, ihs, ihf⟩ := deductBlendRecipe_spec s.coffees blend.recipe q hndC hndR
    refine ⟨?_, ?_, ?_, ?_, ?_⟩
    · simp only [fullCreate, hres, hbb, hblend, hba, hamt, Option.getD_some, hfb,
        Option.map_some', hded]
    · simp only [fullCreate, hres, hbb, hblend, hba, hamt, Option.getD_some, hfb,
        Option.map_some', hded]
      exact ⟨_, rfl, rfl, rfl, ihl⟩
    · intro comp hmem
      simp only [fullCreate, hres, hbb, hblend, hba, hamt, Option.getD_some, hfb,
        Option.map_some', hded]
      exact ihs comp hmem
    · intro cid hcid
      simp only [fullCreate, hres, hbb, hblend, hba, hamt, Option.getD_some, hfb,
        Option.map_some', hded]
      exact ihf cid hcid
    · simp only [fullCreate, hres, hbb, hblend, hba, hamt, Option.getD_some, hfb,
        Option.map_some', hded]
      exact deductBlendRecipe_ids s.coffees blend.recipe q
  · intro ings hblend hndH
    have hded : ∀ Y : Option BlendId,
        deductStep s.coffees s.blends userId none (some ings) Y q
          = deductBlendSpec s.coffees ings q := by
      intro Y
      unfold deductStep
      rw [if_neg (by simp), if_pos ⟨rfl, hq⟩]
      rfl
    obtain ⟨ihl, ihw, ihs, ihf⟩ := deductBlendSpec_spec s.coffees ings q hndC hndH
    refine ⟨?_, ?_, ?_, ?_, ?_, ?_⟩
    · simp only [fullCreate, hres, hbb, hblend, hba, hamt, Option.getD_some, hded]
    · simp only [fullCreate, hres, hbb, hblend, hba, hamt, Option.getD_some, hded]
      exact ⟨_, rfl, rfl, rfl, ihl⟩
    · simp only [fullCreate, hres, hbb, hblend, hba, hamt, Option.getD_some, hded]
      exact ihw
    · intro ing hmem c hresolve
      simp only [fullCreate, hres, hbb, hblend, hba, hamt, Option.getD_some, hded]
      exact ihs ing hmem c hresolve
    · intro cid hcid
      simp only [fullCreate, hres, hbb, hblend, hba, hamt, Option.getD_some, hded]
      exact ihf cid hcid
    · simp only [fullCreate, hres, hbb, hblend, hba, hamt, Option.getD_some, hded]
      exact deductBlendSpec_ids s.coffees ings q

/-- C6 (amended): a creation bound to a percentage Blend computes, per
recipe component, the deduction quantity `quantity x percentage / 100`
(resp. `quantity x ratio` for the inline ad-hoc spec), deducts a component
only when its own stock suffices, skips insufficient components
individually, and records only the actually-deducted components in the
ledger.  The committed per-component stock is the exact difference ROUNDED
TO 3 DECIMALS (the `NUMERIC(10,3)` column), and ledger weights are likewise
recorded rounded to 3 decimals, so the deduction is exact only at 3-decimal
granularity. -/
theorem c6_blend_deduction (s : ServerState) (userId : UserId)
    (key : Option String) (rawBody : RoastBody) (now : Timestamp)
    (ncid : CoffeeId) (rid : RoastId) (d : Timestamp) (q : ℚ)
    (hmiss : key.bind (fun k => cacheLookup s.cache k aroastEndpoint) = none)
    (hrid : (rawBody.roastIdField <|> rawBody.idField) = some rid)
    (hex : findRoast s.roasts rid userId = none)
    (hdate : rawBody.date = some d)
    (hcoffee : rawBody.coffee = none)
    (hamt : rawBody.amountField = some q)
    (hq : 0 < q)
    (hndC : (s.coffees.map (·.id)).Nodup) :
    (∀ bu blend, rawBody.blend = .uuidStr (some bu) →
      findBlend s.blends bu userId = some blend →
      (blend.recipe.map (·.coffeeId)).Nodup →
      ((create_or_update_roast s userId key rawBody now ncid).status = 201 ∧
       (∃ nr : StoredRoast,
         (create_or_update_roast s userId key rawBody now ncid).body = .roastData nr ∧
         (create_or_update_roast s userId key rawBody now ncid).state.roasts
           = s.roasts ++ [nr] ∧
         nr.id = rid ∧
         nr.deductedComponents
           = (blend.recipe.filter (recipePass s.coffees q)).map
               (fun comp => ⟨comp.coffeeId, round3 (q * comp.percentage / 100)⟩)) ∧
       (∀ comp ∈ blend.recipe,
         stockOf (create_or_update_roast s userId key rawBody now ncid).state.coffees
             comp.coffeeId
           = recipeOutcome s.coffees q comp) ∧
       (∀ cid, cid ∉ blend.recipe.map (·.coffeeId) →
         stockOf (create_or_update_roast s userId key rawBody now ncid).state.coffees cid
           = stockOf s.coffees cid) ∧
       ((create_or_update_roast s userId key rawBody now ncid).state.coffees.map (·.id)
         = s.coffees.map (·.id)))) ∧
    (∀ ings, rawBody.blend = .spec ings →
      (ings.filterMap (·.coffee)).Nodup →
      ((create_or_update_roast s userId key rawBody now ncid).status = 201 ∧
       (∃ nr : StoredRoast,
         (create_or_update_roast s userId key rawBody now ncid).body = .roastData nr ∧
         (create_or_update_roast s userId key rawBody now ncid).state.roasts
           = s.roasts ++ [nr] ∧
         nr.id = rid ∧
         nr.deductedComponents = ings.filterMap (specLedgerEntry s.coffees q)) ∧
       (create_or_update_roast s userId key rawBody now ncid).warnings
         = ings.filterMap (specWarnEntry s.coffees q) ∧
       (∀ ing ∈ ings, ∀ c : Coffee, specResolve s.coffees ing = some c →
         stockOf (create_or_update_roast s userId key rawBody now ncid).state.coffees c.id
           = some (if q * ing.ratio ≤ c.stockWeightKg
                   then round3 (c.stockWeightKg - q * ing.ratio)
                   else c.stockWeightKg)) ∧
       (∀ cid,
         (∀ ing ∈ ings, ∀ c : Coffee, specResolve s.coffees ing = some c → c.id ≠ cid) →
         stockOf (create_or_update_roast s userId key rawBody now ncid).state.coffees cid
           = stockOf s.coffees cid) ∧
       ((create_or_update_roast s userId key rawBody now ncid).state.coffees.map (·.id)
         = s.coffees.map (·.id)))) :=
  blend_create_spec s userId key rawBody now ncid rid d q
    hmiss hrid hex hdate hcoffee hamt hq hndC

def c6State : ServerState :=
  ⟨[⟨1, "A", "A", 1⟩, ⟨2, "B", "B", 10⟩], [⟨50, 7, [⟨1, 60⟩, ⟨2, 40⟩]⟩], [], []⟩

def c6Body : RoastBody :=
  { roastIdField := some 42, idField := none, date := some 100,
    roastedAtField := none, roastdateField := none, modifiedAt := none,
    coffee := none, blend := .uuidStr (some 50), amountField := some 5,
    endWeight := none, labelField := none, notesField := none,
    wholeColorField := none, groundColorField := none, cuppingScoreField := none }

theorem c6_blend_deduction_witness :
    (create_or_update_roast c6State 7 none c6Body 100 99).status = 201 ∧
    (∃ nr : StoredRoast,
      (create_or_update_roast c6State 7 none c6Body 100 99).body = .roastData nr ∧
      nr.deductedComponents = [⟨2, 2⟩]) ∧
    stockOf (create_or_update_roast c6State 7 none c6Body 100 99).state.coffees 1
      = some 1 ∧
    stockOf (create_or_update_roast c6State 7 none c6Body 100 99).state.coffees 2
      = some 8 := by
  have h := (c6_blend_deduction c6State 7 none c6Body 100 99 42 100 5 rfl rfl rfl rfl
      rfl rfl (by norm_num) (by decide)).1 50 ⟨50, 7, [⟨1, 60⟩, ⟨2, 40⟩]⟩ rfl rfl
      (by decide)
  have hp1 : recipePass c6State.coffees 5 ⟨1, 60⟩ = false := by
    unfold recipePass findCoffeeById c6State
    simp only [List.find?]
    norm_num
  have hp2 : recipePass c6State.coffees 5 ⟨2, 40⟩ = true := by
    unfold recipePass findCoffeeById c6State
    simp [List.find?]
    norm_num
  have hr3 : round3 (5 * (40 : ℚ) / 100) = 2 := by
    unfold round3 roundTo
    rw [show (5 * (40 : ℚ) / 100) * 1000 + 1/2 = 4001/2 by norm_num]
    rw [show ⌊(4001/2 : ℚ)⌋ = 2000 by norm_num [Int.floor_eq_iff]]
    norm_num
  refine ⟨h.1, ?_, ?_, ?_⟩
  · obtain ⟨nr, hbody, _, _, hled⟩ := h.2.1
    refine ⟨nr, hbody, ?_⟩
    rw [hled, List.filter_cons_of_neg (by simp [hp1]),
      List.filter_cons_of_pos (by simp [hp2])]
    simp [hr3]
  · have h1 := h.2.2.1 ⟨1, 60⟩ (by simp)
    rw [h1]
    unfold recipeOutcome findCoffeeById c6State
    simp only [List.find?]
    norm_num
  · have h2 := h.2.2.1 ⟨2, 40⟩ (by simp)
    rw [h2]
    unfold recipeOutcome findCoffeeById c6State
    simp [List.find?]
    norm_num
    exact round3_eq_self 8000 (by norm_num)

/-- C5 (amended): a creation bound to a single ingredient with requested
quantity `q > 0` records the snapshot `[(ingredient, q)]` and answers 201
when stock suffices, and the committed stock is `stock - q` ROUNDED TO 3
DECIMALS (the `NUMERIC(10,3)` column) — exactly `q` is deducted only at
3-decimal granularity.  With insufficient stock nothing at all is deducted,
a warning is recorded, and the roast is still created. -/
theorem c5_single_ingredient_deduction (s : ServerState) (userId : UserId)
    (key : Option String) (rawBody : RoastBody) (now : Timestamp)
    (ncid : CoffeeId) (rid : RoastId) (d : Timestamp) (hr : String)
    (c : Coffee) (q : ℚ)
    (hmiss : key.bind (fun k => cacheLookup s.cache k aroastEndpoint) = none)
    (hrid : (rawBody.roastIdField <|> rawBody.idField) = some rid)
    (hex : findRoast s.roasts rid userId = none)
    (hdate : rawBody.date = some d)
    (hcof : rawBody.coffee = some hr)
    (hfound : findCoffeeByHr s.coffees hr = some c)
    (hamt : rawBody.amountField = some q)
    (hq : 0 < q)
    (hnodup : (s.coffees.map (·.id)).Nodup) :
    (q ≤ c.stockWeightKg →
      (create_or_update_roast s userId key rawBody now ncid).status = 201 ∧
      stockOf (create_or_update_roast s userId key rawBody now ncid).state.coffees c.id
        = some (round3 (c.stockWeightKg - q)) ∧
      (∀ cid, cid ≠ c.id →
        stockOf (create_or_update_roast s userId key rawBody now ncid).state.coffees cid
          = stockOf s.coffees cid) ∧
      (∃ nr : StoredRoast,
        (create_or_update_roast s userId key rawBody now ncid).body = .roastData nr ∧
        (create_or_update_roast s userId key rawBody now ncid).state.roasts
          = s.roasts ++ [nr] ∧
        nr.id = rid ∧
        nr.deductedComponents = [⟨c.id, q⟩] ∧ nr.greenWeightKg = q) ∧
      (create_or_update_roast s userId key rawBody now ncid).warnings = []) ∧
    (c.stockWeightKg < q →
      (create_or_update_roast s userId key rawBody now ncid).status = 201 ∧
      (create_or_update_roast s userId key rawBody now ncid).state.coffees = s.coffees ∧
      (∃ nr : StoredRoast,
        (create_or_update_roast s userId key rawBody now ncid).body = .roastData nr ∧
        (create_or_update_roast s userId key rawBody now ncid).state.roasts
          = s.roasts ++ [nr] ∧
        nr.deductedComponents = []) ∧
      (create_or_update_roast s userId key rawBody now ncid).warnings = [c.id]) :=
  single_create_spec s userId key rawBody now ncid rid d hr c q
    hmiss hrid hex hdate hcof hfound hamt hq hnodup

def c5State : ServerState :=
  ⟨[⟨1, "C1001", "Brazil", 10⟩], [], [], []⟩

def c5Body : RoastBody :=
  { roastIdField := some 42, idField := none, date := some 100,
    roastedAtField := none, roastdateField := none, modifiedAt := none,
    coffee := some "C1001", blend := .absent, amountField := some (5/2),
    endWeight := none, labelField := none, notesField := none,
    wholeColorField := none, groundColorField := none, cuppingScoreField := none }

theorem c5_single_ingredient_deduction_witness :
    (create_or_update_roast c5State 7 none c5Body 100 99).status = 201 ∧
    stockOf (create_or_update_roast c5State 7 none c5Body 100 99).state.coffees 1
      = some (15/2) ∧
    (create_or_update_roast c5State 7 none c5Body 100 99).warnings = [] := by
  have h := (c5_single_ingredient_deduction c5State 7 none c5Body 100 99 42 100 "C1001"
      ⟨1, "C1001", "Brazil", 10⟩ (5/2) rfl rfl rfl rfl rfl rfl rfl (by norm_num)
      (by decide)).1 (by norm_num)
  refine ⟨h.1, ?_, h.2.2.2.2⟩
  rw [show (15/2 : ℚ) = round3 (10 - 5/2) from by
    rw [round3_eq_self 7500 (by norm_num)]
    norm_num]
  exact h.2.1

/-! ## C4: idempotent replay -/

theorem cacheLookup_append_self (cache : List CacheEntry) (k ep : String)
    (resp : RespBody) (hmiss : cacheLookup cache k ep = none) :
    cacheLookup (cache ++ [⟨k, ep, resp⟩]) k ep = some resp := by
  unfold cacheLookup at *
  rw [List.find?_append]
  have hnone : cache.find? (fun e => e.key == k && e.endpoint == ep) = none := by
    cases hf : cache.find? (fun e => e.key == k && e.endpoint == ep) with
    | none => rfl
    | some e => rw [hf] at hmiss; cases hmiss
  rw [hnone]
  simp

theorem fullCreate_status (s : ServerState) (userId : UserId) (key : Option String)
    (body : RoastBody) (rid : RoastId) (d now : Timestamp) (ncid : CoffeeId) :
    (fullCreate s userId key body rid d now ncid).status = 201 := by
  simp only [fullCreate]

theorem fullCreate_cache (s : ServerState) (userId : UserId) (k : String)
    (body : RoastBody) (rid : RoastId) (d now : Timestamp) (ncid : CoffeeId) :
    (fullCreate s userId (some k) body rid d now ncid).state.cache
      = s.cache ++ [⟨k, aroastEndpoint,
          (fullCreate s userId (some k) body rid d now ncid).body⟩] := by
  simp only [fullCreate, saveIdempotencyCache, resolveCoffee_cache]

/-- A creation followed by a resend of the same payload under the same
idempotency key: the second call replays the cached body verbatim with
status 200 and mutates nothing. -/
theorem replay_after_create (s : ServerState) (userId : UserId) (k : String)
    (rawBody : RoastBody) (now now2 : Timestamp) (ncid ncid2 : CoffeeId)
    (rid : RoastId) (d : Timestamp)
    (hmiss : cacheLookup s.cache k aroastEndpoint = none)
    (hrid : (rawBody.roastIdField <|> rawBody.idField) = some rid)
    (hex : findRoast s.roasts rid userId = none)
    (hdate : rawBody.date = some d) :
    (create_or_update_roast s userId (some k) rawBody now ncid).status = 201 ∧
    (create_or_update_roast
        (create_or_update_roast s userId (some k) rawBody now ncid).state
        userId (some k) rawBody now2 ncid2).status = 200 ∧
    (create_or_update_roast
        (create_or_update_roast s userId (some k) rawBody now ncid).state
        userId (some k) rawBody now2 ncid2).body
      = (create_or_update_roast s userId (some k) rawBody now ncid).body ∧
    (create_or_update_roast
        (create_or_update_roast s userId (some k) rawBody now ncid).state
        userId (some k) rawBody now2 ncid2).state
      = (create_or_update_roast s userId (some k) rawBody now ncid).state := by
  have hmiss' : (some k).bind (fun k' => cacheLookup s.cache k' aroastEndpoint)
      = none := hmiss
  rw [create_reduces_to_fullCreate s userId (some k) rawBody now ncid rid d
    hmiss' hrid hex hdate]
  have hlook : cacheLookup
      (fullCreate s userId (some k) (restore_suppressed_fields rawBody)
        rid d now ncid).state.cache k aroastEndpoint
      = some ((fullCreate s userId (some k) (restore_suppressed_fields rawBody)
          rid d now ncid).body) := by
    rw [fullCreate_cache]
    exact cacheLookup_append_self s.cache k aroastEndpoint _ hmiss
  refine ⟨fullCreate_status s userId (some k) _ rid d now ncid, ?_, ?_, ?_⟩ <;>
    · simp only [create_or_update_roast, Option.bind]
      rw [hlook]

def c4State : ServerState := ⟨[], [], [], []⟩

def c4Body : RoastBody :=
  { roastIdField := some 42, idField := none, date := some 100,
    roastedAtField := none, roastdateField := none, modifiedAt := none,
    coffee := none, blend := .absent, amountField := none,
    endWeight := none, labelField := none, notesField := none,
    wholeColorField := none, groundColorField := none, cuppingScoreField := none }

/-- C4 counterexample: the replayed response is not byte-identical to the
original — the cached body is returned verbatim, but the replay answers
status 200 where the original creation answered 201. -/
theorem c4_idempotent_replay_counterexample :
    (create_or_update_roast c4State 7 (some "K") c4Body 100 99).status = 201 ∧
    (create_or_update_roast
        (create_or_update_roast c4State 7 (some "K") c4Body 100 99).state
        7 (some "K") c4Body 200 98).status = 200 ∧
    (create_or_update_roast
        (create_or_update_roast c4State 7 (some "K") c4Body 100 99).state
        7 (some "K") c4Body 200 98).body
      = (create_or_update_roast c4State 7 (some "K") c4Body 100 99).body ∧
    (create_or_update_roast
        (create_or_update_roast c4State 7 (some "K") c4Body 100 99).state
        7 (some "K") c4Body 200 98).status
      ≠ (create_or_update_roast c4State 7 (some "K") c4Body 100 99).status := by
  have h := replay_after_create c4State 7 "K" c4Body 100 200 99 98 42 100
    rfl rfl rfl rfl
  refine ⟨h.1, h.2.1, h.2.2.1, ?_⟩
  rw [h.1, h.2.1]
  decide

/-- C4 (amended): a resend of the identical payload under the same
Idempotency-Key is answered from the (key, endpoint) cache before any
processing: the cached body is replayed verbatim and no state changes —
the deduction runs exactly once — but the replay's HTTP status is 200
where the original creation's was 201, so the two responses are not
byte-identical at the protocol level. -/
theorem c4_idempotent_replay (s : ServerState) (userId : UserId) (k : String)
    (rawBody : RoastBody) (now now2 : Timestamp) (ncid ncid2 : CoffeeId)
    (rid : RoastId) (d : Timestamp)
    (hmiss : cacheLookup s.cache k aroastEndpoint = none)
    (hrid : (rawBody.roastIdField <|> rawBody.idField) = some rid)
    (hex : findRoast s.roasts rid userId = none)
    (hdate : rawBody.date = some d) :
    (create_or_update_roast s userId (some k) rawBody now ncid).status = 201 ∧
    (create_or_update_roast
        (create_or_update_roast s userId (some k) rawBody now ncid).state
        userId (some k) rawBody now2 ncid2).status = 200 ∧
    (create_or_update_roast
        (create_or_update_roast s userId (some k) rawBody now ncid).state
        userId (some k) rawBody now2 ncid2).body
      = (create_or_update_roast s userId (some k) rawBody now ncid).body ∧
    (create_or_update_roast
        (create_or_update_roast s userId (some k) rawBody now ncid).state
        userId (some k) rawBody now2 ncid2).state
      = (create_or_update_roast s userId (some k) rawBody now ncid).state :=
  replay_after_create s userId k rawBody now now2 ncid ncid2 rid d
    hmiss hrid hex hdate

theorem c4_idempotent_replay_witness :
    (create_or_update_roast c4State 8 (some "key1") c4Body 100 99).status = 201 ∧
    (create_or_update_roast
        (create_or_update_roast c4State 8 (some "key1") c4Body 100 99).state
        8 (some "key1") c4Body 300 98).status = 200 ∧
    (create_or_update_roast
        (create_or_update_roast c4State 8 (some "key1") c4Body 100 99).state
        8 (some "key1") c4Body 300 98).body
      = (create_or_update_roast c4State 8 (some "key1") c4Body 100 99).body ∧
    (create_or_update_roast
        (create_or_update_roast c4State 8 (some "key1") c4Body 100 99).state
        8 (some "key1") c4Body 300 98).state
      = (create_or_update_roast c4State 8 (some "key1") c4Body 100 99).state :=
  c4_idempotent_replay c4State 8 "key1" c4Body 100 300 99 98 42 100
    rfl rfl rfl rfl

/-! ## C2: deduct-then-delete round trip -/

def c2State : ServerState := ⟨[⟨1, "A", "A", 10⟩], [], [], []⟩

def c2Body : RoastBody :=
  { roastIdField := some 42, idField := none, date := some 100,
    roastedAtField := none, roastdateField := none, modifiedAt := none,
    coffee := none, blend := .spec [⟨some "A", 3333/10000⟩], amountField := some 1,
    endWeight := none, labelField := none, notesField := none,
    wholeColorField := none, groundColorField := none, cuppingScoreField := none }

def c5xBody : RoastBody :=
  { roastIdField := some 43, idField := none, date := some 100,
    roastedAtField := none, roastdateField := none, modifiedAt := none,
    coffee := some "A", blend := .absent, amountField := some (3333/10000),
    endWeight := none, labelField := none, notesField := none,
    wholeColorField := none, groundColorField := none, cuppingScoreField := none }

/-- C5 counterexample: requesting `0.3333 kg` from a `10 kg` stock commits
`9.667 kg` (the `NUMERIC(10,3)` column rounds the stored stock), not the
exact `9.6667 kg` — so "exactly q is deducted" fails for quantities finer
than 3 decimals. -/
theorem c5_single_ingredient_deduction_counterexample :
    stockOf (create_or_update_roast c2State 7 none c5xBody 100 99).state.coffees 1
      = some (9667/1000) ∧ ((9667/1000 : ℚ) ≠ 10 - 3333/10000) := by
  refine ⟨?_, by norm_num⟩
  have h := ((single_create_spec c2State 7 none c5xBody 100 99 43 100 "A"
      ⟨1, "A", "A", 10⟩ (3333/10000) rfl rfl rfl rfl rfl rfl rfl (by norm_num)
      (by decide)).1 (by norm_num)).2.1
  have h2 : stockOf (create_or_update_roast c2State 7 none c5xBody 100 99).state.coffees 1
      = some (round3 ((10 : ℚ) - 3333/10000)) := h
  have heval : round3 ((10 : ℚ) - 3333/10000) = 9667/1000 := by
    unfold round3 roundTo
    rw [show ((10 : ℚ) - 3333/10000) * 1000 + 1/2 = 48336/5 by norm_num]
    rw [show ⌊(48336/5 : ℚ)⌋ = 9667 by norm_num [Int.floor_eq_iff]]
    norm_num
  rw [heval] at h2
  exact h2

/-- C6 counterexample: an ad-hoc blend component with ratio `0.3333` on
`1 kg` against a `10 kg` stock commits `9.667 kg`, not the exact
`10 − 0.3333 = 9.6667 kg` — the per-component deduction is not exactly
`quantity x ratio` for sub-3-decimal weights. -/
theorem c6_blend_deduction_counterexample :
    stockOf (create_or_update_roast c2State 7 none c2Body 100 99).state.coffees 1
      = some (9667/1000) ∧ ((9667/1000 : ℚ) ≠ 10 - 1 * (3333/10000)) := by
  refine ⟨?_, by norm_num⟩
  have hres : specResolve c2State.coffees ⟨some "A", 3333/10000⟩
      = some ⟨1, "A", "A", 10⟩ := by
    unfold specResolve
    dsimp only
    rw [if_neg (by norm_num : ¬ (3333/10000 : ℚ) ≤ 0)]
    rfl
  have h := ((blend_create_spec c2State 7 none c2Body 100 99 42 100 1 rfl rfl rfl
      rfl rfl rfl (by norm_num) (by decide)).2 [⟨some "A", 3333/10000⟩] rfl
      (by decide)).2.2.2.1 ⟨some "A", 3333/10000⟩ (by simp) ⟨1, "A", "A", 10⟩ hres
  have h2 : stockOf (create_or_update_roast c2State 7 none c2Body 100 99).state.coffees 1
      = some (if (1 : ℚ) * (3333/10000) ≤ 10
              then round3 ((10 : ℚ) - 1 * (3333/10000)) else 10) := h
  have heval : (if (1 : ℚ) * (3333/10000) ≤ 10
      then round3 ((10 : ℚ) - 1 * (3333/10000)) else (10 : ℚ)) = 9667/1000 := by
    rw [if_pos (by norm_num)]
    unfold round3 roundTo
    rw [show ((10 : ℚ) - 1 * (3333/10000)) * 1000 + 1/2 = 48336/5 by norm_num]
    rw [show ⌊(48336/5 : ℚ)⌋ = 9667 by norm_num [Int.floor_eq_iff]]
    norm_num
  rw [heval] at h2
  exact h2

end RoastServer
